import Mathlib

/-!
# Session lifecycle of the `steam` package

A shallow embedding of `login.go` and `restore.go`:

* Go strings are Lean strings, `uint64`/`int` are `Nat`/`Int`;
* a nil pointer is `none`, a nil-pointer dereference is `Run.panic`;
* a Go `(value, error)` result is an `Except Error value`;
* the HTTP transport, the random source and the clock are inputs of a call
  (`LoginEnv`), the requests a call issues are an output (`LoginResult.sent`).

`Steam.LoginGo` holds the code of `login.go` (flat snapshot), `Steam.RestoreGo` the
code of `restore.go` (cookie-capturing snapshot).
-/

set_option autoImplicit false

namespace Steam

/-! ## Errors, panics -/

/-- Error values the package can return: its four sentinels, `errors.New(msg)`, and the
errors of the libraries it calls. -/
inductive Error where
  | ErrRestoreClientNil
  | ErrRestoreDataNil
  | ErrInvalidUsername
  | ErrNeedTwoFactor
  /-- Result of `errors.New(msg)`: a fresh error value carrying `msg`. -/
  | message (msg : String)
  /-- The `*strconv.NumError` of `strconv.ParseInt` for the given input. -/
  | numError (input : String)
  /-- An error of `crypto/rsa`. -/
  | rsa (why : String)
  /-- An error of the random source. -/
  | random (why : String)
  /-- An error of `http.NewRequest`, `Client.Do` or `httputil.DumpResponse`. -/
  | transport (why : String)
  /-- An error of `encoding/json`. -/
  | json (why : String)
  /-- An error of the two-factor code generator. -/
  | generator (why : String)
  deriving DecidableEq, Repr

deriving instance DecidableEq for Except

/-- Outcome of running a Go function: it returns, or the goroutine panics. -/
inductive Run (α : Type) where
  | ret (a : α)
  | panic (why : String)
  deriving DecidableEq, Repr

/-! ## `net/http` cookies and the cookie jar, seen from the service's base URL -/

/-- The fields of `http.Cookie` the package reads or writes. -/
structure Cookie where
  Name : String
  Value : String
  MaxAge : Int := 0
  deriving DecidableEq, Repr

/-- An entry of the jar: one cookie stored for the base URL. -/
structure Entry where
  Name : String
  Value : String
  deriving DecidableEq, Repr

/-- The `cookiejar.Jar` of a client, restricted to the cookies it returns for the
service's base URL `https://steamcommunity.com`. For one host and path the jar keys its
entries by cookie name and returns them in the order they were first stored. Cookies a
server scopes to another path or to a parent domain are outside this view, and no time
passes: a stored cookie stays until a cookie of its name with a negative `MaxAge`
deletes it. -/
structure Jar where
  entries : List Entry
  deriving DecidableEq, Repr

/-- The jar `cookiejar.New(nil)` returns; its error result is always nil. -/
def cookiejarNew : Except Error Jar := .ok ⟨[]⟩

/-- Store one cookie in a list of entries: a negative `MaxAge` deletes the entry of
that name, otherwise the entry is overwritten in place or appended. -/
def setEntry (es : List Entry) (c : Cookie) : List Entry :=
  if c.MaxAge < 0 then
    es.filter (fun e => e.Name ≠ c.Name)
  else if es.any (fun e => e.Name = c.Name) then
    es.map (fun e => if e.Name = c.Name then { e with Value := c.Value } else e)
  else
    es ++ [⟨c.Name, c.Value⟩]

/-- Embeds `Jar.SetCookies(steamUrl, cookies)`: the cookies are stored one after
another. -/
def Jar.SetCookies (j : Jar) (cookies : List Cookie) : Jar :=
  ⟨cookies.foldl setEntry j.entries⟩

/-- Embeds `Jar.Cookies(steamUrl)`: name and value of every stored cookie; the other
fields of the returned cookies are zero. -/
def Jar.Cookies (j : Jar) : List Cookie :=
  j.entries.map (fun e => { Name := e.Name, Value := e.Value })

/-- Value of the cookie of the given name, if the jar holds one. -/
def Jar.value? (j : Jar) (name : String) : Option String :=
  (j.entries.find? (fun e => e.Name = name)).map Entry.Value

/-- The fields of `http.Client` that matter here: the transport and timeout stand for
everything the package never touches, `Jar` is nil (`none`) until one is installed. -/
structure Client where
  Transport : String := ""
  Timeout : Nat := 0
  Jar : Option Jar := none
  deriving DecidableEq, Repr

/-- Rendering of `fmt.Sprintf("steamMachineAuth%d", id)` for an unsigned id. -/
def steamMachineAuthName (id : Nat) : String :=
  "steamMachineAuth" ++ Nat.repr id

/-! ## Bytes, hexadecimal, base64 -/

/-- UTF-8 encoding of one character, as byte values. -/
def utf8EncodeChar (c : Char) : List Nat :=
  let v := c.toNat
  if v < 0x80 then [v]
  else if v < 0x800 then [0xC0 + v / 0x40, 0x80 + v % 0x40]
  else if v < 0x10000 then [0xE0 + v / 0x1000, 0x80 + v / 0x40 % 0x40, 0x80 + v % 0x40]
  else [0xF0 + v / 0x40000, 0x80 + v / 0x1000 % 0x40, 0x80 + v / 0x40 % 0x40, 0x80 + v % 0x40]

/-- The bytes of a Go string, `[]byte(s)`. -/
def bytesOf (s : String) : List Nat :=
  s.data.flatMap utf8EncodeChar

/-- Lowercase hexadecimal digit of a value below 16. -/
def hexDigit (n : Nat) : Char :=
  if n < 10 then Char.ofNat (48 + n) else Char.ofNat (87 + n)

/-- The two lowercase hexadecimal digits of a byte. -/
def hexByte (b : Nat) : List Char :=
  [hexDigit (b / 16 % 16), hexDigit (b % 16)]

/-- Embeds `hex.Encode` and the `%x` verb of `fmt` on a byte slice: two lowercase
digits per byte, no separator. -/
def hexEncode (bs : List Nat) : String :=
  ⟨bs.flatMap hexByte⟩

/-- The alphabet of `base64.StdEncoding`. -/
def base64Alphabet : List Char :=
  "ABCDEFGHIJKLMNOPQRSTUVWXYZabcdefghijklmnopqrstuvwxyz0123456789+/".data

/-- One character of the standard base64 alphabet. -/
def base64Char (n : Nat) : Char :=
  base64Alphabet.getD (n % 64) 'A'

/-- Base64 encoding of a byte list with `=` padding, on the list of characters. -/
def base64Chars : List Nat → List Char
  | a :: b :: c :: rest =>
    base64Char (a / 4) :: base64Char (a % 4 * 16 + b / 16) ::
      base64Char (b % 16 * 4 + c / 64) :: base64Char (c % 64) :: base64Chars rest
  | [a, b] =>
    [base64Char (a / 4), base64Char (a % 4 * 16 + b / 16), base64Char (b % 16 * 4), '=']
  | [a] => [base64Char (a / 4), base64Char (a % 4 * 16), '=', '=']
  | [] => []

/-- Embeds `base64.StdEncoding.EncodeToString`. -/
def base64Encode (bs : List Nat) : String :=
  ⟨base64Chars bs⟩

/-! ## MD5 (`crypto/md5`) -/

namespace MD5

/-- Per-round left-rotation amounts. -/
def shifts : List Nat :=
  [7, 12, 17, 22, 7, 12, 17, 22, 7, 12, 17, 22, 7, 12, 17, 22,
   5, 9, 14, 20, 5, 9, 14, 20, 5, 9, 14, 20, 5, 9, 14, 20,
   4, 11, 16, 23, 4, 11, 16, 23, 4, 11, 16, 23, 4, 11, 16, 23,
   6, 10, 15, 21, 6, 10, 15, 21, 6, 10, 15, 21, 6, 10, 15, 21]

/-- The sine-derived additive constants. -/
def K : List Nat :=
  [0xd76aa478, 0xe8c7b756, 0x242070db, 0xc1bdceee, 0xf57c0faf, 0x4787c62a, 0xa8304613, 0xfd469501,
   0x698098d8, 0x8b44f7af, 0xffff5bb1, 0x895cd7be, 0x6b901122, 0xfd987193, 0xa679438e, 0x49b40821,
   0xf61e2562, 0xc040b340, 0x265e5a51, 0xe9b6c7aa, 0xd62f105d, 0x02441453, 0xd8a1e681, 0xe7d3fbc8,
   0x21e1cde6, 0xc33707d6, 0xf4d50d87, 0x455a14ed, 0xa9e3e905, 0xfcefa3f8, 0x676f02d9, 0x8d2a4c8a,
   0xfffa3942, 0x8771f681, 0x6d9d6122, 0xfde5380c, 0xa4beea44, 0x4bdecfa9, 0xf6bb4b60, 0xbebfbc70,
   0x289b7ec6, 0xeaa127fa, 0xd4ef3085, 0x04881d05, 0xd9d4d039, 0xe6db99e5, 0x1fa27cf8, 0xc4ac5665,
   0xf4292244, 0x432aff97, 0xab9423a7, 0xfc93a039, 0x655b59c3, 0x8f0ccc92, 0xffeff47d, 0x85845dd1,
   0x6fa87e4f, 0xfe2ce6e0, 0xa3014314, 0x4e0811a1, 0xf7537e82, 0xbd3af235, 0x2ad7d2bb, 0xeb86d391]

/-- Two to the 32. -/
def W : Nat := 4294967296

/-- Rotate a 32-bit word left. -/
def rotl (x n : Nat) : Nat :=
  ((x <<< n) ||| (x >>> (32 - n))) % W

/-- Bitwise complement of a 32-bit word. -/
def not32 (x : Nat) : Nat := (W - 1) ^^^ (x % W)

/-- The four chaining words. -/
structure State where
  a : Nat
  b : Nat
  c : Nat
  d : Nat
  deriving DecidableEq, Repr

/-- Initial chaining value. -/
def init : State := ⟨0x67452301, 0xefcdab89, 0x98badcfe, 0x10325476⟩

/-- Little-endian 32-bit word at index `i` of a block of bytes. -/
def word (block : List Nat) (i : Nat) : Nat :=
  block.getD (4 * i) 0 + 256 * block.getD (4 * i + 1) 0 +
    65536 * block.getD (4 * i + 2) 0 + 16777216 * block.getD (4 * i + 3) 0

/-- One of the 64 steps on a block. -/
def step (block : List Nat) (st : State) (i : Nat) : State :=
  let f :=
    if i < 16 then (st.b &&& st.c) ||| (not32 st.b &&& st.d)
    else if i < 32 then (st.d &&& st.b) ||| (not32 st.d &&& st.c)
    else if i < 48 then st.b ^^^ st.c ^^^ st.d
    else st.c ^^^ (st.b ||| not32 st.d)
  let g :=
    if i < 16 then i
    else if i < 32 then (5 * i + 1) % 16
    else if i < 48 then (3 * i + 5) % 16
    else (7 * i) % 16
  let t := (f + st.a + K.getD i 0 + word block g) % W
  ⟨st.d, (st.b + rotl t (shifts.getD i 0)) % W, st.b, st.c⟩

/-- Compress one 64-byte block into the chaining value. -/
def compress (st : State) (block : List Nat) : State :=
  let r := (List.range 64).foldl (step block) st
  ⟨(st.a + r.a) % W, (st.b + r.b) % W, (st.c + r.c) % W, (st.d + r.d) % W⟩

/-- The message followed by the `0x80` byte, the zero fill and the 64-bit little-endian
bit length. -/
def pad (msg : List Nat) : List Nat :=
  let n := msg.length
  let zeros := (55 + 64 - n % 64) % 64
  let bits := 8 * n % 18446744073709551616
  msg ++ [0x80] ++ List.replicate zeros 0 ++
    (List.range 8).map (fun i => bits / 256 ^ i % 256)

/-- The four bytes of a 32-bit word, least significant first. -/
def wordBytes (w : Nat) : List Nat :=
  [w % 256, w / 256 % 256, w / 65536 % 256, w / 16777216 % 256]

/-- Embeds `md5.Sum`: the 16-byte digest of a message. -/
def sum (msg : List Nat) : List Nat :=
  let p := pad msg
  let st := (List.range (p.length / 64)).foldl
    (fun st j => compress st ((p.drop (64 * j)).take 64)) init
  wordBytes st.a ++ wordBytes st.b ++ wordBytes st.c ++ wordBytes st.d

end MD5

/-! ## Numeric parsing (`strconv`, `math/big`) -/

/-- Value of a hexadecimal digit, upper or lower case. -/
def hexVal (c : Char) : Option Nat :=
  if '0' ≤ c ∧ c ≤ '9' then some (c.toNat - 48)
  else if 'a' ≤ c ∧ c ≤ 'f' then some (c.toNat - 87)
  else if 'A' ≤ c ∧ c ≤ 'F' then some (c.toNat - 55)
  else none

/-- Value of a non-empty run of hexadecimal digits; `none` when the run is empty or
holds another character. -/
def hexNumber (cs : List Char) : Option Nat :=
  if cs.isEmpty then none
  else cs.foldlM (fun acc c => (hexVal c).map (fun d => acc * 16 + d)) 0

/-- Embeds `strconv.ParseInt(s, 16, 32)`: an optional sign, then hexadecimal digits
only, the value within the signed 32-bit range; anything else is a `*NumError`. -/
def parseInt16 (s : String) : Except Error Int :=
  match s.data with
  | [] => .error (.numError s)
  | c :: rest =>
    let neg := c = '-'
    let digits := if c = '+' ∨ c = '-' then rest else c :: rest
    match hexNumber digits with
    | none => .error (.numError s)
    | some un =>
      if ¬ neg ∧ un ≥ 2147483648 then .error (.numError s)
      else if neg ∧ un > 2147483648 then .error (.numError s)
      else .ok (if neg then -(un : Int) else (un : Int))

/-- Embeds `(*big.Int).SetString(s, 16)` on a fresh receiver: the value left in the
receiver and the success flag. A sign and the longest run of hexadecimal digits are
scanned into the receiver; the flag is false when there is no digit or when characters
are left over. The library documents the receiver as undefined after a failure; its
scanner leaves in it the digits scanned so far (zero when there is none), which is what
is rendered here. -/
def bigSetString16 (s : String) : Int × Bool :=
  match s.data with
  | [] => (0, false)
  | c :: rest =>
    let neg := c = '-'
    let body := if c = '+' ∨ c = '-' then rest else c :: rest
    let digits := body.takeWhile (fun d => (hexVal d).isSome)
    let left := body.dropWhile (fun d => (hexVal d).isSome)
    match hexNumber digits with
    | none => (0, false)
    | some abs => (if neg then -(abs : Int) else (abs : Int), left.isEmpty)

/-! ## RSA encryption (`crypto/rsa`) -/

/-- Bit length by shifting, at most `fuel` shifts: 64 bits at a time while the number
has more than 64 bits, then bit by bit. -/
def bitLenAux : Nat → Nat → Nat
  | 0, _ => 0
  | fuel + 1, n =>
    if n = 0 then 0
    else if n < 18446744073709551616 then bitLenAux fuel (n / 2) + 1
    else bitLenAux fuel (n / 18446744073709551616) + 64

/-- Number of bits of a natural number, `big.Int.BitLen`. -/
def bitLen (n : Nat) : Nat :=
  bitLenAux n n

/-- Big-endian value of a byte list. -/
def fromBytes (bs : List Nat) : Nat :=
  bs.foldl (fun acc b => acc * 256 + b) 0

/-- The `k` big-endian bytes of a number. -/
def toBytes (k n : Nat) : List Nat :=
  (List.range k).map (fun i => n / 256 ^ (k - 1 - i) % 256)

/-- Embeds `rsa.EncryptPKCS1v15(rand.Reader, &rsa.PublicKey{N, E}, msg)`: the exponent
and message-length checks, the block `00 02 PS 00 msg` with `PS` non-zero random bytes,
and the modular exponentiation. `random` is what the random source yields for the
padding; the library redraws zero bytes, rendered here by mapping each byte into
`1..255`. -/
def rsaEncryptPKCS1v15 (random : Except Error (List Nat)) (N E : Int) (msg : List Nat) :
    Except Error (List Nat) :=
  if E < 2 then .error (.rsa "public exponent too small")
  else if E > 2147483647 then .error (.rsa "public exponent too large")
  else
    let k := (bitLen N.natAbs + 7) / 8
    if (msg.length : Int) > (k : Int) - 11 then
      .error (.rsa "message too long for RSA key size")
    else
      match random with
      | .error e => .error e
      | .ok rnd =>
        let ps := (List.range (k - msg.length - 3)).map (fun i => rnd.getD i 0 % 255 + 1)
        let em := [0, 2] ++ ps ++ [0] ++ msg
        .ok (toBytes k (fromBytes em ^ E.toNat % N.natAbs))

/-! ## JSON (`encoding/json`) -/

/-- A JSON document. -/
inductive Json where
  | null
  | bool (b : Bool)
  | num (text : String)
  | str (s : String)
  | arr (items : List Json)
  | obj (members : List (String × Json))

namespace Json

/-- Drop leading JSON white space. -/
def skipWs : List Char → List Char
  | c :: rest => if c = ' ' ∨ c = '\t' ∨ c = '\r' ∨ c = '\n' then skipWs rest else c :: rest
  | [] => []

/-- Value of four hexadecimal digits. -/
def hex4 (a b c d : Char) : Option Nat :=
  match hexVal a, hexVal b, hexVal c, hexVal d with
  | some w, some x, some y, some z => some (w * 4096 + x * 256 + y * 16 + z)
  | _, _, _, _ => none

/-- The character an escape `\uXXXX` stands for when it is no surrogate half. -/
def unitChar (u : Nat) : Char :=
  if 0xD800 ≤ u ∧ u ≤ 0xDFFF then Char.ofNat 0xFFFD else Char.ofNat u

/-- Scan a string literal after its opening quote: the decoded text and the input
after the closing quote. Control characters and malformed escapes are rejected; a
surrogate pair of `\u` escapes is one character, a lone surrogate half is U+FFFD. -/
def parseStr : Nat → List Char → List Char → Option (String × List Char)
  | 0, _, _ => none
  | _ + 1, [], _ => none
  | fuel + 1, c :: rest, acc =>
    if c = '"' then some (⟨acc.reverse⟩, rest)
    else if c.toNat < 0x20 then none
    else if c = '\\' then
      match rest with
      | 'u' :: h1 :: h2 :: h3 :: h4 :: rest1 =>
        match hex4 h1 h2 h3 h4 with
        | none => none
        | some u =>
          if 0xD800 ≤ u ∧ u ≤ 0xDBFF then
            match rest1 with
            | '\\' :: 'u' :: l1 :: l2 :: l3 :: l4 :: rest2 =>
              match hex4 l1 l2 l3 l4 with
              | none => none
              | some v =>
                if 0xDC00 ≤ v ∧ v ≤ 0xDFFF then
                  parseStr fuel rest2
                    (Char.ofNat (0x10000 + (u - 0xD800) * 0x400 + (v - 0xDC00)) :: acc)
                else parseStr fuel rest1 (Char.ofNat 0xFFFD :: acc)
            | _ => parseStr fuel rest1 (Char.ofNat 0xFFFD :: acc)
          else parseStr fuel rest1 (unitChar u :: acc)
      | e :: rest1 =>
        if e = '"' ∨ e = '\\' ∨ e = '/' then parseStr fuel rest1 (e :: acc)
        else if e = 'b' then parseStr fuel rest1 (Char.ofNat 8 :: acc)
        else if e = 'f' then parseStr fuel rest1 (Char.ofNat 12 :: acc)
        else if e = 'n' then parseStr fuel rest1 ('\n' :: acc)
        else if e = 'r' then parseStr fuel rest1 ('\r' :: acc)
        else if e = 't' then parseStr fuel rest1 ('\t' :: acc)
        else none
      | [] => none
    else parseStr fuel rest (c :: acc)

/-- Split off a run of decimal digits. -/
def spanDigits (cs : List Char) : List Char × List Char :=
  (cs.takeWhile Char.isDigit, cs.dropWhile Char.isDigit)

/-- Scan a number literal: `-? (0 | [1-9][0-9]*) (. [0-9]+)? ([eE] [+-]? [0-9]+)?`. -/
def parseNum (cs : List Char) : Option (String × List Char) :=
  let (sign, cs1) := match cs with
    | '-' :: r => (['-'], r)
    | _ => ([], cs)
  let (int, cs2) := match cs1 with
    | '0' :: r => (['0'], r)
    | _ => spanDigits cs1
  if int.isEmpty then none
  else
    let frac : Option (List Char × List Char) := match cs2 with
      | '.' :: r =>
        let (ds, r1) := spanDigits r
        if ds.isEmpty then none else some ('.' :: ds, r1)
      | _ => some ([], cs2)
    match frac with
    | none => none
    | some (fr, cs3) =>
      let exp : Option (List Char × List Char) := match cs3 with
        | e :: r =>
          if e = 'e' ∨ e = 'E' then
            let (sg, r1) := match r with
              | s :: r0 => if s = '+' ∨ s = '-' then ([s], r0) else ([], r)
              | [] => ([], r)
            let (ds, r2) := spanDigits r1
            if ds.isEmpty then none else some (e :: sg ++ ds, r2)
          else some ([], cs3)
        | [] => some ([], cs3)
      match exp with
      | none => none
      | some (ex, cs4) => some (⟨sign ++ int ++ fr ++ ex⟩, cs4)

mutual

/-- Scan one JSON value, at the given nesting depth. -/
def parseValue : Nat → Nat → List Char → Option (Json × List Char)
  | 0, _, _ => none
  | fuel + 1, depth, cs =>
    match skipWs cs with
    | [] => none
    | c :: rest =>
      if c = '{' then
        if depth ≥ 10000 then none
        else match skipWs rest with
          | '}' :: rest1 => some (.obj [], rest1)
          | _ => parseMembers fuel (depth + 1) rest []
      else if c = '[' then
        if depth ≥ 10000 then none
        else match skipWs rest with
          | ']' :: rest1 => some (.arr [], rest1)
          | _ => parseItems fuel (depth + 1) rest []
      else if c = '"' then
        (parseStr (rest.length + 1) rest []).map (fun r => (.str r.1, r.2))
      else if c = 't' then
        match rest with
        | 'r' :: 'u' :: 'e' :: rest1 => some (.bool true, rest1)
        | _ => none
      else if c = 'f' then
        match rest with
        | 'a' :: 'l' :: 's' :: 'e' :: rest1 => some (.bool false, rest1)
        | _ => none
      else if c = 'n' then
        match rest with
        | 'u' :: 'l' :: 'l' :: rest1 => some (.null, rest1)
        | _ => none
      else (parseNum (c :: rest)).map (fun r => (.num r.1, r.2))

/-- Scan the members of an object up to its closing brace. -/
def parseMembers : Nat → Nat → List Char → List (String × Json) → Option (Json × List Char)
  | 0, _, _, _ => none
  | fuel + 1, depth, cs, acc =>
    match skipWs cs with
    | '"' :: rest =>
      match parseStr (rest.length + 1) rest [] with
      | none => none
      | some (key, rest1) =>
        match skipWs rest1 with
        | ':' :: rest2 =>
          match parseValue fuel depth rest2 with
          | none => none
          | some (v, rest3) =>
            match skipWs rest3 with
            | ',' :: rest4 => parseMembers fuel depth rest4 (acc ++ [(key, v)])
            | '}' :: rest4 => some (.obj (acc ++ [(key, v)]), rest4)
            | _ => none
        | _ => none
    | _ => none

/-- Scan the items of an array up to its closing bracket. -/
def parseItems : Nat → Nat → List Char → List Json → Option (Json × List Char)
  | 0, _, _, _ => none
  | fuel + 1, depth, cs, acc =>
    match parseValue fuel depth cs with
    | none => none
    | some (v, rest) =>
      match skipWs rest with
      | ',' :: rest1 => parseItems fuel depth rest1 (acc ++ [v])
      | ']' :: rest1 => some (.arr (acc ++ [v]), rest1)
      | _ => none

end

/-- Parse a whole text as one JSON document, white space allowed around it; `none`
is the syntax error of `encoding/json`. -/
def parse (text : String) : Option Json :=
  match parseValue (2 * text.length + 2) 0 text.data with
  | some (v, rest) => if (skipWs rest).isEmpty then some v else none
  | none => none

/-- Case folding `encoding/json` applies to object keys when matching struct fields:
ASCII letters lose their case, and the Kelvin sign and the long s fold to `K` and
`S`. -/
def foldKey (s : String) : List Char :=
  s.data.map (fun c =>
    if 'a' ≤ c ∧ c ≤ 'z' then Char.ofNat (c.toNat - 32)
    else if c = Char.ofNat 0x212A then 'K'
    else if c = Char.ofNat 0x17F then 'S'
    else c)

/-- Whether an object key selects the struct field with the given JSON name. -/
def keyMatches (key name : String) : Bool :=
  foldKey key = foldKey name

end Json

/-! ## HTTP exchanges -/

/-- An outgoing request: method, URL up to the query, the query parameters and the
headers added to it. -/
structure Request where
  Method : String
  URL : String
  Form : List (String × String)
  Header : List (String × String)
  deriving DecidableEq, Repr

/-- What the transport does with one `Client.Do` call: the error it returns if any,
the cookies of the response it hands to the client's jar, and the result of decoding
the response body as JSON into a fresh value of the expected struct. -/
structure Exchange (α : Type) where
  doErr : Option Error := none
  setCookies : List Cookie := []
  body : Except Error α

/-- Embeds `Client.Do`: the response cookies go into the jar when the client has one;
the result is the transport error or the decoded body. -/
def Client.Do {α : Type} (c : Client) (ex : Exchange α) : Client × Except Error (Except Error α) :=
  let c1 : Client := match c.Jar with
    | some jar => { c with Jar := some (jar.SetCookies ex.setCookies) }
    | none => c
  match ex.doErr with
  | some e => (c1, .error e)
  | none => (c1, .ok ex.body)

/-- Whether `needle` occurs in `hay`, `strings.Contains`. -/
def stringsContains (hay needle : String) : Bool :=
  hay.data.tails.any (fun t => needle.data.isPrefixOf t)

namespace LoginGo

/-! ## `login.go` -/

/-- Decoded body of the key-fetch response. -/
structure LoginResponse where
  Success : Bool := false
  PublicKeyMod : String := ""
  PublicKeyExp : String := ""
  Timestamp : String := ""
  TokenGID : String := ""
  deriving DecidableEq, Repr

/-- Modelled from the spec: the declaration of `SteamID` is not among the sources; the
spec calls it the numeric account identifier and the code converts it from and to
`uint64`, so it is an unsigned 64-bit number. -/
abbrev SteamID := Nat

/-- The token bundle of a login. -/
structure OAuth where
  SteamID : SteamID := 0
  Token : String := ""
  WGToken : String := ""
  WGTokenSecure : String := ""
  WebCookie : String := ""
  deriving DecidableEq, Repr

/-- Decoded body of the login-submit response. -/
structure LoginSession where
  Success : Bool := false
  LoginComplete : Bool := false
  RequiresTwoFactor : Bool := false
  Message : String := ""
  RedirectURI : String := ""
  OAuthInfo : String := ""
  deriving DecidableEq, Repr

/-- The flat snapshot of a session. -/
structure SessionData where
  OAuthToken : String := ""
  OAuthWGToken : String := ""
  OAuthWGTokenSecure : String := ""
  OAuthWebCookie : String := ""
  SteamID : Nat := 0
  SessionID : String := ""
  ApiKey : String := ""
  DeviceID : String := ""
  UmqID : String := ""
  ChatMessage : Int := 0
  Language : String := ""
  deriving DecidableEq, Repr

/-- The live session. `client` is the caller's `*http.Client`, possibly nil. -/
structure Session where
  client : Option Client := none
  oauth : OAuth := {}
  sessionID : String := ""
  apiKey : String := ""
  deviceID : String := ""
  umqID : String := ""
  chatMessage : Int := 0
  language : String := ""
  debug : Bool := false
  deriving DecidableEq, Repr

def httpXRequestedWithValue : String := "com.valvesoftware.android.steam.community"

def httpAcceptValue : String := "text/javascript, text/html, application/xml, text/xml, */*"

def httpUserAgentValue : String :=
  "Mozilla/5.0 (Linux; U; Android 4.1.1; en-us; Google Nexus 4 - 4.1.1 - API 16 - " ++
  "768x1280 Build/JRO03S) AppleWebKit/534.30 (KHTML, like Gecko) Version/4.0 Mobile Safari/534.30"

def httpLoginReferer : String :=
  "https://steamcommunity.com/mobilelogin?oauth_client_id=DE45CD61&oauth_scope=read_profile" ++
  "%20write_profile%20read_client%20write_client"

/-- The four headers both requests carry. -/
def loginHeaders : List (String × String) :=
  [("X-Requested-With", httpXRequestedWithValue), ("Referer", httpLoginReferer),
   ("User-Agent", httpUserAgentValue), ("Accept", httpAcceptValue)]

/-- Result of a restore: the caller's transport after the call, the requests issued,
and the returned session or error. -/
structure RestoreResult where
  client : Option Client
  sent : List Request
  result : Except Error Session
  deriving Repr

/-- Embeds `RestoreSession` of `login.go`. -/
def RestoreSession (client : Option Client) (data : Option SessionData) : RestoreResult :=
  match client with
  | none => ⟨client, [], .error .ErrRestoreClientNil⟩
  | some c =>
    match data with
    | none => ⟨client, [], .error .ErrRestoreDataNil⟩
    | some data =>
      let oauth : OAuth :=
        { SteamID := data.SteamID
          Token := data.OAuthToken
          WGToken := data.OAuthWGToken
          WGTokenSecure := data.OAuthWGTokenSecure
          WebCookie := data.OAuthWebCookie }
      let session : Session :=
        { client := some c
          oauth := oauth
          sessionID := data.SessionID
          apiKey := data.ApiKey
          deviceID := data.DeviceID
          umqID := data.UmqID
          chatMessage := data.ChatMessage
          language := data.Language }
      ⟨client, [], .ok session⟩

/-- Embeds `(*Session).Dump` of `login.go`. -/
def Dump (session : Session) : SessionData :=
  { SteamID := session.oauth.SteamID
    OAuthToken := session.oauth.Token
    OAuthWGToken := session.oauth.WGToken
    OAuthWGTokenSecure := session.oauth.WGTokenSecure
    OAuthWebCookie := session.oauth.WebCookie
    SessionID := session.sessionID
    ApiKey := session.apiKey
    DeviceID := session.deviceID
    UmqID := session.umqID
    ChatMessage := session.chatMessage
    Language := session.language }

/-- Embeds `NewSessionWithAPIKey`: a session on a fresh `http.Client{}`. -/
def NewSessionWithAPIKey (apiKey : String) : Session :=
  { client := some {}, apiKey := apiKey, language := "english" }

/-- Embeds `NewSession`. -/
def NewSession (client : Option Client) (apiKey : String) (debug : Bool) : Session :=
  { client := client, apiKey := apiKey, language := "english", debug := debug }

/-- Embeds `GetSteamID`. -/
def GetSteamID (session : Session) : SteamID := session.oauth.SteamID

/-- Embeds `SetLanguage`. -/
def SetLanguage (session : Session) (lang : String) : Session :=
  { session with language := lang }

/-! ### Decoding the oauth payload into the session -/

/-- Progress of `json.Unmarshal` into the `OAuth` struct: the struct so far and the
first error saved while decoding went on. -/
structure DecodeState where
  oauth : OAuth
  saved : Option Error

/-- Embeds `saveError`: only the first error is kept. -/
def DecodeState.save (st : DecodeState) (e : Error) : DecodeState :=
  match st.saved with
  | some _ => st
  | none => { st with saved := some e }

/-- Embeds `strconv.ParseUint(s, 10, 64)`: decimal digits only, value below 2^64. -/
def parseUint10 (s : String) : Option Nat :=
  if s.data.isEmpty ∨ ¬ s.data.all Char.isDigit then none
  else
    let n := s.data.foldl (fun acc c => acc * 10 + (c.toNat - 48)) 0
    if n < 18446744073709551616 then some n else none

/-- The error of a misused `,string` tag. -/
def errStringTag : Error := .json "invalid use of ,string struct tag"

/-- The error of a JSON value of the wrong kind for its field. -/
def errType : Error := .json "cannot unmarshal value into Go struct field"

/-- Store the content of a quoted value into the `steamid,string` field (an unsigned
integer): `literalStore` with `fromQuoted`. An `Except.error` aborts the decoding, a
saved error lets it go on. -/
def storeSteamID (item : String) (st : DecodeState) : Except Error DecodeState :=
  match item.data with
  | [] => .ok (st.save errStringTag)
  | c :: rest =>
    if c = 'n' then
      if item = "null" then .ok st else .ok (st.save errStringTag)
    else if c = 't' ∨ c = 'f' then .ok (st.save errStringTag)
    else if c = '"' then
      match Json.parseStr (rest.length + 1) rest [] with
      | some (_, []) => .ok (st.save errType)
      | _ => .error errStringTag
    else if c ≠ '-' ∧ ¬ c.isDigit then .error errStringTag
    else
      match parseUint10 item with
      | some n => .ok { st with oauth := { st.oauth with SteamID := n } }
      | none => .ok (st.save errType)

/-- Store a JSON value into a string field of the struct. -/
def storeString (v : Json) (set : String → OAuth → OAuth) (st : DecodeState) : DecodeState :=
  match v with
  | .str s => { st with oauth := set s st.oauth }
  | .null => st
  | _ => st.save errType

/-- Decode one object member: the key selects a field by its JSON name, case folded;
an unknown key is skipped. -/
def decodeMember (key : String) (v : Json) (st : DecodeState) : Except Error DecodeState :=
  if Json.keyMatches key "steamid" then
    match v with
    | .null => .ok st
    | .str item => storeSteamID item st
    | _ => .ok (st.save errStringTag)
  else if Json.keyMatches key "oauth_token" then
    .ok (storeString v (fun s o => { o with Token := s }) st)
  else if Json.keyMatches key "wgtoken" then
    .ok (storeString v (fun s o => { o with WGToken := s }) st)
  else if Json.keyMatches key "wgtoken_secure" then
    .ok (storeString v (fun s o => { o with WGTokenSecure := s }) st)
  else if Json.keyMatches key "webcookie" then
    .ok (storeString v (fun s o => { o with WebCookie := s }) st)
  else .ok st

/-- Decode the members of an object in order; the result is the struct as left and the
error `Unmarshal` returns. -/
def decodeMembers : List (String × Json) → DecodeState → OAuth × Option Error
  | [], st => (st.oauth, st.saved)
  | (key, v) :: rest, st =>
    match decodeMember key v st with
    | .error e => (st.oauth, some e)
    | .ok st1 => decodeMembers rest st1

/-- Embeds `json.Unmarshal([]byte(data), &oauth)`: the struct after the call and the
returned error. Invalid JSON changes nothing; `null` changes nothing and is no error;
a value that is no object is an error; fields absent from the object keep their
value. -/
def unmarshalOAuth (data : String) (oauth : OAuth) : OAuth × Option Error :=
  match Json.parse data with
  | none => (oauth, some (.json "invalid JSON"))
  | some .null => (oauth, none)
  | some (.obj members) => decodeMembers members ⟨oauth, none⟩
  | some _ => (oauth, some errType)

/-! ### The login flow -/

/-- Everything outside the program one login call meets, in the order it is met. -/
structure LoginEnv where
  /-- Error of `http.NewRequest` for the key-fetch URL, which embeds the account name
  unescaped. -/
  keyRequestErr : Option Error := none
  /-- The key-fetch exchange. -/
  keyFetch : Exchange LoginResponse
  /-- The function `GenerateTwoFactorCode`, whose source is not at hand. -/
  generate : String → Int → Except Error String := fun _ _ => .ok ""
  /-- Reading of `time.Now()` in `Login`, nanoseconds since the epoch. -/
  codeTime : Int := 0
  /-- What the random source yields for the encryption padding. -/
  padding : Except Error (List Nat) := .ok []
  /-- Reading of `time.Now().Unix()` when the submit request is built. -/
  submitTime : Int := 0
  /-- The login-submit exchange. -/
  submit : Exchange LoginSession
  /-- Error of `httputil.DumpResponse`, consulted in debug mode only. -/
  dumpErr : Option Error := none
  /-- What the random source yields for the session id. -/
  sessionRandom : Except Error (List Nat) := .ok []

/-- What a call leaves behind: the session, the returned error, the requests handed to
`Client.Do` in order, and the calls made to the code generator. -/
structure LoginResult where
  session : Session
  err : Option Error
  sent : List Request := []
  generated : List (String × Int) := []
  deriving DecidableEq, Repr

/-- The key-fetch request. -/
def keyFetchRequest (accountName : String) : Request :=
  { Method := "POST"
    URL := "https://steamcommunity.com/login/getrsakey?username=" ++ accountName
    Form := []
    Header := loginHeaders }

/-- The login-submit request; `Form` lists the query values as the source does. -/
def submitRequest (response : LoginResponse) (accountName twoFactorCode : String)
    (rsaOut : List Nat) (now : Int) : Request :=
  { Method := "POST"
    URL := "https://steamcommunity.com/login/dologin/"
    Form :=
      [("captcha_text", ""),
       ("captchagid", "-1"),
       ("emailauth", ""),
       ("emailsteamid", ""),
       ("password", base64Encode rsaOut),
       ("remember_login", "true"),
       ("rsatimestamp", response.Timestamp),
       ("twofactorcode", twoFactorCode),
       ("username", accountName),
       ("oauth_client_id", "DE45CD61"),
       ("oauth_scope", "read_profile write_profile read_client write_client"),
       ("loginfriendlyname", "#login_emailauth_friendlyname_mobile"),
       ("donotcache", toString (now * 1000))]
    Header := loginHeaders }

/-- The device id: `fmt.Sprintf("android:%x-%x-%x-%x-%x", sum[:2], ..., sum[8:10])` on
the MD5 digest of account name and password. -/
def deviceIDOf (accountName password : String) : String :=
  let sum := MD5.sum (bytesOf (accountName ++ password))
  "android:" ++ hexEncode ((sum.take 2)) ++ "-" ++ hexEncode ((sum.drop 2).take 2) ++ "-" ++
    hexEncode ((sum.drop 4).take 2) ++ "-" ++ hexEncode ((sum.drop 6).take 2) ++ "-" ++
    hexEncode ((sum.drop 8).take 2)

/-- The loop over the jar's cookies: the device and locale cookies get `MaxAge = -1`. -/
def expireStale (cookies : List Cookie) : List Cookie :=
  cookies.map (fun cookie =>
    if cookie.Name = "mobileClient" ∨ cookie.Name = "mobileClientVersion" ∨
        cookie.Name = "steamCountry" ∨ stringsContains cookie.Name "steamMachineAuth" then
      { cookie with MaxAge := -1 }
    else cookie)

/-- The six bytes `rand.Read` leaves in the buffer. -/
def randomBytesOf (rnd : List Nat) : List Nat :=
  (List.range 6).map (fun i => rnd.getD i 0 % 256)

/-- Embeds `(*Session).proceedDirectLogin`. -/
def proceedDirectLogin (session : Session) (response : LoginResponse)
    (accountName password twoFactorCode : String) (env : LoginEnv) : Run LoginResult :=
  let n := (bigSetString16 response.PublicKeyMod).1
  match parseInt16 response.PublicKeyExp with
  | .error err => .ret { session := session, err := some err }
  | .ok exp =>
    match rsaEncryptPKCS1v15 env.padding n exp (bytesOf password) with
    | .error err => .ret { session := session, err := some err }
    | .ok rsaOut =>
      let req := submitRequest response accountName twoFactorCode rsaOut env.submitTime
      match session.client with
      | none => .panic "nil pointer dereference"
      | some client0 =>
        let (client, resp) := client0.Do env.submit
        let session := { session with client := some client }
        match resp with
        | .error err => .ret { session := session, err := some err, sent := [req] }
        | .ok body =>
          match (if session.debug then env.dumpErr else none) with
          | some err => .ret { session := session, err := some err, sent := [req] }
          | none =>
            match body with
            | .error err => .ret { session := session, err := some err, sent := [req] }
            | .ok loginSession =>
              if ¬ loginSession.Success then
                if loginSession.RequiresTwoFactor then
                  .ret { session := session, err := some .ErrNeedTwoFactor, sent := [req] }
                else
                  .ret { session := session, err := some (.message loginSession.Message),
                         sent := [req] }
              else
                let (oauth, uerr) := unmarshalOAuth loginSession.OAuthInfo session.oauth
                let session := { session with oauth := oauth }
                match uerr with
                | some err => .ret { session := session, err := some err, sent := [req] }
                | none =>
                  match env.sessionRandom with
                  | .error err => .ret { session := session, err := some err, sent := [req] }
                  | .ok rnd =>
                    let randomBytes := randomBytesOf rnd
                    let session := { session with sessionID := hexEncode randomBytes }
                    match client.Jar with
                    | none => .panic "nil pointer dereference"
                    | some jar =>
                      let cookies := expireStale jar.Cookies
                      let session := { session with deviceID := deviceIDOf accountName password }
                      let jar := jar.SetCookies
                        (cookies ++ [{ Name := "sessionid", Value := session.sessionID }])
                      .ret { session := { session with client := some { client with Jar := some jar } },
                             err := none, sent := [req] }

/-- Embeds `(*Session).makeLoginRequest`: the session after the call, the requests
sent, and the key material or the error. -/
def makeLoginRequest (session : Session) (accountName : String) (env : LoginEnv) :
    Run (Session × List Request × Except Error LoginResponse) :=
  match env.keyRequestErr with
  | some err => .ret (session, [], .error err)
  | none =>
    let req := keyFetchRequest accountName
    match cookiejarNew with
    | .error err => .ret (session, [], .error err)
    | .ok jar =>
      let cookies : List Cookie :=
        [{ Name := "mobileClientVersion", Value := "0 (2.1.3)" },
         { Name := "mobileClient", Value := "android" },
         { Name := "Steam_Language", Value := session.language },
         { Name := "timezoneOffset", Value := "0,0" }]
      let jar := jar.SetCookies cookies
      match session.client with
      | none => .panic "nil pointer dereference"
      | some client0 =>
        let (client, resp) := ({ client0 with Jar := some jar } : Client).Do env.keyFetch
        let session := { session with client := some client }
        match resp with
        | .error err => .ret (session, [req], .error err)
        | .ok body =>
          match body with
          | .error err => .ret (session, [req], .error err)
          | .ok response =>
            if ¬ response.Success then .ret (session, [req], .error .ErrInvalidUsername)
            else .ret (session, [req], .ok response)

/-- Embeds `(*Session).LoginTwoFactorCode`. -/
def LoginTwoFactorCode (session : Session) (accountName password twoFactorCode : String)
    (env : LoginEnv) : Run LoginResult :=
  match makeLoginRequest session accountName env with
  | .panic why => .panic why
  | .ret (session, sent, .error err) => .ret { session := session, err := some err, sent := sent }
  | .ret (session, sent, .ok response) =>
    match proceedDirectLogin session response accountName password twoFactorCode env with
    | .panic why => .panic why
    | .ret r => .ret { r with sent := sent ++ r.sent }

/-- Embeds `(*Session).Login`; `timeOffset` is a `time.Duration`, in nanoseconds. -/
def Login (session : Session) (accountName password sharedSecret : String) (timeOffset : Int)
    (env : LoginEnv) : Run LoginResult :=
  match makeLoginRequest session accountName env with
  | .panic why => .panic why
  | .ret (session, sent, .error err) => .ret { session := session, err := some err, sent := sent }
  | .ret (session, sent, .ok response) =>
    if sharedSecret.length ≠ 0 then
      let unix : Int := Int.fdiv (env.codeTime + timeOffset) 1000000000
      match env.generate sharedSecret unix with
      | .error err =>
        .ret { session := session, err := some err, sent := sent,
               generated := [(sharedSecret, unix)] }
      | .ok twoFactorCode =>
        match proceedDirectLogin session response accountName password twoFactorCode env with
        | .panic why => .panic why
        | .ret r => .ret { r with sent := sent ++ r.sent, generated := [(sharedSecret, unix)] }
    else
      match proceedDirectLogin session response accountName password "" env with
      | .panic why => .panic why
      | .ret r => .ret { r with sent := sent ++ r.sent }

end LoginGo

namespace RestoreGo

/-! ## `restore.go` -/

/-- Modelled from the spec: the constant `httpBaseUrl` is not among the sources; the spec
has the snapshot read the cookies of "the cookie domain used for all requests", the
base URL `login.go` spells out. -/
def httpBaseUrl : String := "https://steamcommunity.com"

/-- Result of `url.Parse(httpBaseUrl)`: the constant is a well-formed URL. -/
def parseBaseUrl : Except Error String := .ok httpBaseUrl

/-- Modelled from the spec: the `OAuth` struct `restore.go` is written against is not
among the sources; the spec lists its fields as account identifier, bearer token,
secure web-login token and web cookie value, which are the four `restore.go` uses. -/
structure OAuth where
  SteamID : Nat := 0
  Token : String := ""
  LoginSecure : String := ""
  WebCookie : String := ""
  deriving DecidableEq, Repr

/-- Modelled from the spec: the `Session` struct `restore.go` is written against, with
the fields of `login.go`'s session and the `OAuth` above. -/
structure Session where
  client : Option Client := none
  oauth : OAuth := {}
  sessionID : String := ""
  apiKey : String := ""
  deviceID : String := ""
  umqID : String := ""
  chatMessage : Int := 0
  language : String := ""
  debug : Bool := false
  deriving DecidableEq, Repr

/-- The cookie values a snapshot keeps. -/
structure CookieData where
  TimezoneOffset : String := ""
  SessionID : String := ""
  SteamCountry : String := ""
  SteamLoginSecure : String := ""
  SteamMachineAuth : String := ""
  SteamRememberLogin : String := ""
  deriving DecidableEq, Repr

/-- The cookie-capturing snapshot of a session. -/
structure SessionData where
  SteamID : Nat := 0
  SessionID : String := ""
  DeviceID : String := ""
  UmqID : String := ""
  Token : String := ""
  LoginSecure : String := ""
  WebCookie : String := ""
  ApiKey : String := ""
  ChatMessage : Int := 0
  Language : String := ""
  Cookies : CookieData := {}
  deriving DecidableEq, Repr

/-- Result of a restore: the caller's transport after the call, the requests issued,
and the returned session or error. -/
structure RestoreResult where
  client : Option Client
  sent : List Request
  result : Except Error Session
  deriving Repr

/-- Body of the `switch cookie.Name` of `Dump`, for one cookie. -/
def captureCookie (steamID : Nat) (cookieData : CookieData) (cookie : Cookie) : CookieData :=
  if cookie.Name = "sessionid" then { cookieData with SessionID := cookie.Value }
  else if cookie.Name = "timezoneOffset" then { cookieData with TimezoneOffset := cookie.Value }
  else if cookie.Name = "steamCountry" then { cookieData with SteamCountry := cookie.Value }
  else if cookie.Name = "steamLoginSecure" then
    { cookieData with SteamLoginSecure := cookie.Value }
  else if cookie.Name = steamMachineAuthName steamID then
    { cookieData with SteamMachineAuth := cookie.Value }
  else if cookie.Name = "steamRememberLogin" then
    { cookieData with SteamRememberLogin := cookie.Value }
  else cookieData

/-- Embeds `(*Session).Dump` of `restore.go`. -/
def Dump (session : Session) : Run (Except Error SessionData) :=
  match parseBaseUrl with
  | .error err => .ret (.error err)
  | .ok _ =>
    match session.client with
    | none => .panic "nil pointer dereference"
    | some client =>
      match client.Jar with
      | none => .panic "nil pointer dereference"
      | some jar =>
        let cookies := jar.Cookies
        let cookieData := cookies.foldl (captureCookie session.oauth.SteamID) {}
        .ret (.ok
          { Cookies := cookieData
            SteamID := session.oauth.SteamID
            Token := session.oauth.Token
            LoginSecure := session.oauth.LoginSecure
            WebCookie := session.oauth.WebCookie
            SessionID := session.sessionID
            DeviceID := session.deviceID
            UmqID := session.umqID
            ApiKey := session.apiKey
            ChatMessage := session.chatMessage
            Language := session.language })

/-- Embeds `RestoreSession` of `restore.go`. -/
def RestoreSession (client : Option Client) (data : Option SessionData) (debug : Bool) :
    RestoreResult :=
  match client with
  | none => ⟨client, [], .error .ErrRestoreClientNil⟩
  | some c =>
    match data with
    | none => ⟨client, [], .error .ErrRestoreDataNil⟩
    | some data =>
      match cookiejarNew with
      | .error err => ⟨client, [], .error err⟩
      | .ok cookieJar =>
        match parseBaseUrl with
        | .error err => ⟨client, [], .error err⟩
        | .ok _ =>
          let cookieJar := cookieJar.SetCookies
            [{ Name := "sessionid", Value := data.Cookies.SessionID },
             { Name := "timezoneOffset", Value := data.Cookies.TimezoneOffset },
             { Name := "steamCountry", Value := data.Cookies.SteamCountry },
             { Name := "steamLoginSecure", Value := data.Cookies.SteamLoginSecure },
             { Name := steamMachineAuthName data.SteamID, Value := data.Cookies.SteamMachineAuth },
             { Name := "steamRememberLogin", Value := data.Cookies.SteamRememberLogin }]
          let c : Client := { c with Jar := some cookieJar }
          let oauth : OAuth :=
            { SteamID := data.SteamID
              Token := data.Token
              LoginSecure := data.LoginSecure
              WebCookie := data.WebCookie }
          let session : Session :=
            { client := some c
              oauth := oauth
              sessionID := data.SessionID
              apiKey := data.ApiKey
              deviceID := data.DeviceID
              umqID := data.UmqID
              chatMessage := data.ChatMessage
              language := data.Language
              debug := debug }
          ⟨some c, [], .ok session⟩

/-- The constructor `NewSessionWithAPIKey` of `login.go`, for the session of this file:
a session on a fresh `http.Client{}`, which has no cookie jar. -/
def NewSessionWithAPIKey (apiKey : String) : Session :=
  { client := some {}, apiKey := apiKey, language := "english" }

/-- The constructor `NewSession` of `login.go`, for the session of this file. -/
def NewSession (client : Option Client) (apiKey : String) (debug : Bool) : Session :=
  { client := client, apiKey := apiKey, language := "english", debug := debug }

end RestoreGo

/-! ## Reading results, sample inputs -/

/-- The value a run returns, `none` when it panics. -/
def Run.result? {α : Type} : Run α → Option α
  | .ret a => some a
  | .panic _ => none

namespace LoginGo

/-- A 2048-bit RSA modulus in hexadecimal, as the key-fetch endpoint sends one. -/
def sampleModulus : String :=
  "9a2933f548c107fd43c5d1de15e39926dbf9bf463bf27444251228a6938a334f" ++
  "d14ff65c710ffcec65badab2323f1480c1d2417c317be5169732c86ab1382a8e" ++
  "5b9183fe70f1e345281c9388bc8400a2bbe9952845a523aab7c479271ef9a689" ++
  "d27e6f4dd13ebe918c038ac1a38d84e0552499c06cb818393c04358e806b7b8d" ++
  "5ba10cb4f40e8efd0644f9582eabac38ee0cc61f8f6d56414de5493f40fca264" ++
  "a704cdac23fb616bd05bf2f58723575c689b0e26cf2bf5fde86020f4d9d08525" ++
  "c2a55c9d654e8a2427916efdc29b263c319916b992af3edfb0e467d53cc57044" ++
  "644dd11dc29ff6a2e745a3b717deae84ef0f298fc8ca78db937870659bb38ec5"

/-- A key-fetch answer with the sample modulus and the exponent 65537. -/
def sampleKey : LoginResponse :=
  { Success := true, PublicKeyMod := sampleModulus, PublicKeyExp := "010001",
    Timestamp := "287815450000", TokenGID := "" }

/-- An environment in which the key fetch answers `key`, the submit answers `answer`,
nothing fails, and the random source yields the bytes 1 to 6 for the session id. -/
def sampleEnv (key : LoginResponse) (answer : LoginSession) : LoginEnv :=
  { keyFetch := { body := .ok key }
    submit := { body := .ok answer }
    padding := .ok [7, 7, 7]
    sessionRandom := .ok [1, 2, 3, 4, 5, 6] }

/-- A submit answer reporting success, with an oauth payload as the service sends it. -/
def sampleAnswer : LoginSession :=
  { Success := true, LoginComplete := true,
    OAuthInfo := "\x7b\"steamid\":\"76561197960287930\",\"oauth_token\":\"f00d\"," ++
      "\"wgtoken\":\"aa\",\"wgtoken_secure\":\"bb\",\"webcookie\":\"cc\"\x7d" }

/-- The number a member of an oauth payload gives for the account identifier: the
member is named `steamid` (case folded) and holds a decimal string below 2^64. -/
def steamIDMember (m : String × Json) : Option Nat :=
  if Json.keyMatches m.1 "steamid" then
    match m.2 with
    | .str item => parseUint10 item
    | _ => none
  else none

/-- The account identifier an oauth payload carries: the number of the last member that
gives one, if the payload is an object and has such a member. -/
def carriedSteamID : Json → Option Nat
  | .obj members => (members.filterMap steamIDMember).getLast?
  | _ => none

/-- The sessions a program can hold: one fresh from `NewSession`, or one left by a call
of `Login` or `LoginTwoFactorCode`, failed or not, on a session it could hold, whatever
the transport, the random source and the clock did during the call. -/
inductive Reachable : Session → Prop where
  | fresh (client : Option Client) (apiKey : String) (debug : Bool) :
    Reachable (NewSession client apiKey debug)
  | login (s : Session) (accountName password sharedSecret : String) (timeOffset : Int)
    (env : LoginEnv) (r : LoginResult) :
    Reachable s → Login s accountName password sharedSecret timeOffset env = .ret r →
    Reachable r.session
  | loginCode (s : Session) (accountName password twoFactorCode : String)
    (env : LoginEnv) (r : LoginResult) :
    Reachable s → LoginTwoFactorCode s accountName password twoFactorCode env = .ret r →
    Reachable r.session

/-- Value of the cookie of the given name in the jar of the session's client, if the
session has a client, the client a jar and the jar such a cookie. -/
def cookieOf (s : Session) (name : String) : Option String :=
  (s.client.bind Client.Jar).bind (fun jar => jar.value? name)

/-- The jar as `proceedDirectLogin` reads it when the submit answered: the fresh jar of
`makeLoginRequest` with its four cookies, then the cookies of the key-fetch response,
then those of the submit response. -/
def jarAtReconciliation (s : Session) (env : LoginEnv) : Jar :=
  (((⟨[]⟩ : Jar).SetCookies
      [{ Name := "mobileClientVersion", Value := "0 (2.1.3)" },
       { Name := "mobileClient", Value := "android" },
       { Name := "Steam_Language", Value := s.language },
       { Name := "timezoneOffset", Value := "0,0" }]).SetCookies
    env.keyFetch.setCookies).SetCookies env.submit.setCookies

/-- The cookie names the reconciliation loop of `proceedDirectLogin` expires. -/
def staleName (name : String) : Bool :=
  name = "mobileClient" ∨ name = "mobileClientVersion" ∨ name = "steamCountry" ∨
    stringsContains name "steamMachineAuth"

/-- The value a request carries for a query parameter, if it has the parameter. -/
def formValue (q : Request) (key : String) : Option String :=
  (q.Form.find? (fun kv => kv.1 = key)).map Prod.snd

/-- The sample environment with a submit response that also sets cookies: the secure
login cookie, the country marker and a machine-auth cookie. -/
def sampleCookieEnv : LoginEnv :=
  { keyFetch := { body := .ok sampleKey }
    submit :=
      { body := .ok sampleAnswer
        setCookies :=
          [{ Name := "steamLoginSecure", Value := "76561197960287930%7C%7Cf00d" },
           { Name := "steamCountry", Value := "US%7Cabc" },
           { Name := "steamMachineAuth76561197960287930", Value := "beef" }] }
    padding := .ok [7, 7, 7]
    sessionRandom := .ok [1, 2, 3, 4, 5, 6] }

/-- Modelled from the spec: `GenerateTwoFactorCode` is not among the sources; the spec
(4.2) has it fail on a malformed base64 secret. This stand-in shows that failure only:
it fails on a secret with a character outside the base64 alphabet, padding and line
breaks, and yields a placeholder code otherwise. -/
def failingGenerator (secret : String) (_unix : Int) : Except Error String :=
  if secret.data.all (fun c => c ∈ base64Alphabet ∨ c = '=' ∨ c = '\r' ∨ c = '\n') then
    .ok "00000"
  else .error (.generator "illegal base64 data")

/-- The URL of the login-submit endpoint. -/
def submitURL : String := "https://steamcommunity.com/login/dologin/"

end LoginGo

/-! # Theorems -/

/-! ## Known answers of the library renderings -/

set_option maxRecDepth 1000000 in
/-- The MD5 digests of the empty message, of `abc` and of an 80-byte message (two
blocks) are the ones of RFC 1321. -/
theorem md5_known_answers :
    hexEncode (MD5.sum (bytesOf "")) = "d41d8cd98f00b204e9800998ecf8427e" ∧
    hexEncode (MD5.sum (bytesOf "abc")) = "900150983cd24fb0d6963f7d28e17f72" ∧
    hexEncode (MD5.sum (bytesOf
      "12345678901234567890123456789012345678901234567890123456789012345678901234567890")) =
      "57edf4a22be3c955ac49da2e2107b67a" := by
  decide

/-- The base64 encodings of `f`, `fo`, `foo` and `foob` are the ones of RFC 4648. -/
theorem base64_known_answers :
    base64Encode (bytesOf "f") = "Zg==" ∧ base64Encode (bytesOf "fo") = "Zm8=" ∧
    base64Encode (bytesOf "foo") = "Zm9v" ∧ base64Encode (bytesOf "foob") = "Zm9vYg==" := by
  decide

/-- Parsing of exponents: `010001` is 65537, the signed 32-bit bounds are kept, and an
empty string, a `0x` mark or a lone sign are errors. -/
theorem parseInt16_known_answers :
    parseInt16 "010001" = .ok 65537 ∧ parseInt16 "7fffffff" = .ok 2147483647 ∧
    parseInt16 "-80000000" = .ok (-2147483648) ∧
    parseInt16 "80000000" = .error (.numError "80000000") ∧
    parseInt16 "" = .error (.numError "") ∧ parseInt16 "0x11" = .error (.numError "0x11") ∧
    parseInt16 "-" = .error (.numError "-") := by
  decide

/-- Scanning of moduli: a hexadecimal number is taken whole; with a character that is no
digit the flag is false and the digits before it stay. -/
theorem bigSetString16_known_answers :
    bigSetString16 "FFff" = (65535, true) ∧ bigSetString16 "-ff" = (-255, true) ∧
    bigSetString16 "ab!cd" = (171, false) ∧ bigSetString16 "zz" = (0, false) ∧
    bigSetString16 "" = (0, false) := by
  decide

/-! ## Cookie names -/

/-- The characters of a machine-auth cookie name: the fixed stem, then the decimal id. -/
theorem steamMachineAuthName_data (id : Nat) :
    (steamMachineAuthName id).data = "steamMachineAuth".data ++ (Nat.repr id).data := by
  simp [steamMachineAuthName]

/-- A machine-auth cookie name is not `sessionid`. -/
theorem steamMachineAuthName_ne_sessionid (id : Nat) :
    steamMachineAuthName id ≠ "sessionid" := by
  intro h
  have h1 := congrArg String.data h
  rw [steamMachineAuthName_data] at h1
  simp at h1

/-- A machine-auth cookie name is not `timezoneOffset`. -/
theorem steamMachineAuthName_ne_timezoneOffset (id : Nat) :
    steamMachineAuthName id ≠ "timezoneOffset" := by
  intro h
  have h1 := congrArg String.data h
  rw [steamMachineAuthName_data] at h1
  simp at h1

/-- A machine-auth cookie name is not `steamCountry`. -/
theorem steamMachineAuthName_ne_steamCountry (id : Nat) :
    steamMachineAuthName id ≠ "steamCountry" := by
  intro h
  have h1 := congrArg String.data h
  rw [steamMachineAuthName_data] at h1
  simp at h1

/-- A machine-auth cookie name is not `steamLoginSecure`. -/
theorem steamMachineAuthName_ne_steamLoginSecure (id : Nat) :
    steamMachineAuthName id ≠ "steamLoginSecure" := by
  intro h
  have h1 := congrArg String.data h
  rw [steamMachineAuthName_data] at h1
  simp at h1

/-- A machine-auth cookie name is not `steamRememberLogin`. -/
theorem steamMachineAuthName_ne_steamRememberLogin (id : Nat) :
    steamMachineAuthName id ≠ "steamRememberLogin" := by
  intro h
  have h1 := congrArg String.data h
  rw [steamMachineAuthName_data] at h1
  simp at h1

/-! ## Snapshot and restore -/

/-- The jar `RestoreSession` of `restore.go` builds holds the six cookies in the order
they are given. -/
theorem restore_jar_entries (d : RestoreGo.SessionData) :
    ((⟨[]⟩ : Jar).SetCookies
      [{ Name := "sessionid", Value := d.Cookies.SessionID },
       { Name := "timezoneOffset", Value := d.Cookies.TimezoneOffset },
       { Name := "steamCountry", Value := d.Cookies.SteamCountry },
       { Name := "steamLoginSecure", Value := d.Cookies.SteamLoginSecure },
       { Name := steamMachineAuthName d.SteamID, Value := d.Cookies.SteamMachineAuth },
       { Name := "steamRememberLogin", Value := d.Cookies.SteamRememberLogin }]).entries =
      [⟨"sessionid", d.Cookies.SessionID⟩,
       ⟨"timezoneOffset", d.Cookies.TimezoneOffset⟩,
       ⟨"steamCountry", d.Cookies.SteamCountry⟩,
       ⟨"steamLoginSecure", d.Cookies.SteamLoginSecure⟩,
       ⟨steamMachineAuthName d.SteamID, d.Cookies.SteamMachineAuth⟩,
       ⟨"steamRememberLogin", d.Cookies.SteamRememberLogin⟩] := by
  have a1 := steamMachineAuthName_ne_sessionid d.SteamID
  have a2 := steamMachineAuthName_ne_timezoneOffset d.SteamID
  have a3 := steamMachineAuthName_ne_steamCountry d.SteamID
  have a4 := steamMachineAuthName_ne_steamLoginSecure d.SteamID
  have a5 := steamMachineAuthName_ne_steamRememberLogin d.SteamID
  simp [Jar.SetCookies, setEntry, a1, a2, a3, a4, a5, Ne.symm a1, Ne.symm a2, Ne.symm a3,
    Ne.symm a4, Ne.symm a5]

/-- C1: for every snapshot `d` and every non-nil transport, `RestoreSession` succeeds and
`Dump` of the restored session returns a snapshot equal to `d` in every field, in the
flat variant of `login.go` and in the cookie-capturing variant of `restore.go` (there
including the six nested cookie values, and for either value of the debug flag). -/
theorem C1_dump_restore_roundtrip (c : Client) (debug : Bool) :
    (∀ d : LoginGo.SessionData, ∃ s,
        (LoginGo.RestoreSession (some c) (some d)).result = .ok s ∧ LoginGo.Dump s = d) ∧
    (∀ d : RestoreGo.SessionData, ∃ s,
        (RestoreGo.RestoreSession (some c) (some d) debug).result = .ok s ∧
        RestoreGo.Dump s = .ret (.ok d)) := by
  refine ⟨fun d => ⟨_, rfl, rfl⟩, fun d => ⟨_, rfl, ?_⟩⟩
  have a1 := steamMachineAuthName_ne_sessionid d.SteamID
  have a2 := steamMachineAuthName_ne_timezoneOffset d.SteamID
  have a3 := steamMachineAuthName_ne_steamCountry d.SteamID
  have a4 := steamMachineAuthName_ne_steamLoginSecure d.SteamID
  have a5 := steamMachineAuthName_ne_steamRememberLogin d.SteamID
  simp only [RestoreGo.Dump, RestoreGo.parseBaseUrl, cookiejarNew, Jar.Cookies,
    restore_jar_entries]
  simp [RestoreGo.captureCookie, a1, a2, a3, a4, a5, Ne.symm a1, Ne.symm a2, Ne.symm a3,
    Ne.symm a4, Ne.symm a5]

/-- C2: `RestoreSession` fails exactly when the transport or the snapshot is nil. With a
nil transport it returns `ErrRestoreClientNil` (whatever the snapshot), with a transport
and a nil snapshot `ErrRestoreDataNil`; in both cases there is no session, the
transport is as it was and no request was issued; with both present it returns a
session. In both variants. -/
theorem C2_restore_preconditions :
    (∀ data, LoginGo.RestoreSession none data = ⟨none, [], .error .ErrRestoreClientNil⟩) ∧
    (∀ c, LoginGo.RestoreSession (some c) none = ⟨some c, [], .error .ErrRestoreDataNil⟩) ∧
    (∀ c d, ∃ s, (LoginGo.RestoreSession (some c) (some d)).result = .ok s ∧
      (LoginGo.RestoreSession (some c) (some d)).sent = []) ∧
    (∀ data debug,
      RestoreGo.RestoreSession none data debug = ⟨none, [], .error .ErrRestoreClientNil⟩) ∧
    (∀ c debug,
      RestoreGo.RestoreSession (some c) none debug = ⟨some c, [], .error .ErrRestoreDataNil⟩) ∧
    (∀ c d debug, ∃ s, (RestoreGo.RestoreSession (some c) (some d) debug).result = .ok s ∧
      (RestoreGo.RestoreSession (some c) (some d) debug).sent = []) := by
  refine ⟨fun _ => rfl, fun _ => rfl, fun _ _ => ⟨_, rfl, rfl⟩, fun _ _ => rfl, fun _ _ => rfl,
    fun _ _ _ => ⟨_, rfl, rfl⟩⟩

/-- C3 (the code at the failing input): `Dump` of `restore.go` on a session fresh from
`NewSessionWithAPIKey`, or from `NewSession` on a client without a cookie jar, does not
return a snapshot: it dereferences the nil jar and panics. -/
theorem C3_dump_panics_without_jar (apiKey : String) (debug : Bool) :
    RestoreGo.Dump (RestoreGo.NewSessionWithAPIKey apiKey) = .panic "nil pointer dereference" ∧
    RestoreGo.Dump (RestoreGo.NewSession (some {}) apiKey debug) =
      .panic "nil pointer dereference" :=
  ⟨rfl, rfl⟩

/-! ## The login flow -/

/-- C6: when the key-fetch response is decoded with `success` false, `Login` and
`LoginTwoFactorCode` return exactly `ErrInvalidUsername`; the only request sent is the
key-fetch request, the code generator is not called, and the session's oauth, sessionID
and deviceID are unchanged. -/
theorem C6_invalid_username (s : LoginGo.Session) (c : Client)
    (accountName password sharedSecret twoFactorCode : String) (timeOffset : Int)
    (env : LoginGo.LoginEnv) (response : LoginGo.LoginResponse)
    (hclient : s.client = some c)
    (hreq : env.keyRequestErr = none)
    (hdo : env.keyFetch.doErr = none)
    (hbody : env.keyFetch.body = .ok response)
    (hfail : response.Success = false) :
    (∃ r, LoginGo.Login s accountName password sharedSecret timeOffset env = .ret r ∧
      r.err = some .ErrInvalidUsername ∧ r.sent = [LoginGo.keyFetchRequest accountName] ∧
      r.generated = [] ∧ r.session.oauth = s.oauth ∧ r.session.sessionID = s.sessionID ∧
      r.session.deviceID = s.deviceID) ∧
    (∃ r, LoginGo.LoginTwoFactorCode s accountName password twoFactorCode env = .ret r ∧
      r.err = some .ErrInvalidUsername ∧ r.sent = [LoginGo.keyFetchRequest accountName] ∧
      r.generated = [] ∧ r.session.oauth = s.oauth ∧ r.session.sessionID = s.sessionID ∧
      r.session.deviceID = s.deviceID) := by
  constructor <;>
    simp [LoginGo.Login, LoginGo.LoginTwoFactorCode, LoginGo.makeLoginRequest, hclient, hreq,
      cookiejarNew, Client.Do, hdo, hbody, hfail]

set_option maxRecDepth 100000 in
/-- C6 at a concrete input: a fresh session, account "alice", and a key-fetch response
with `success` false. -/
theorem C6_invalid_username_witness :
    (∃ r, LoginGo.Login (LoginGo.NewSession (some {}) "" false) "alice" "secret" "c2VjcmV0" 0
        (LoginGo.sampleEnv {} {}) = .ret r ∧
      r.err = some .ErrInvalidUsername ∧ r.sent = [LoginGo.keyFetchRequest "alice"] ∧
      r.generated = [] ∧ r.session.oauth = {} ∧ r.session.sessionID = "" ∧
      r.session.deviceID = "") ∧
    (∃ r, LoginGo.LoginTwoFactorCode (LoginGo.NewSession (some {}) "" false) "alice" "secret"
        "R2D2X" (LoginGo.sampleEnv {} {}) = .ret r ∧
      r.err = some .ErrInvalidUsername ∧ r.sent = [LoginGo.keyFetchRequest "alice"] ∧
      r.generated = [] ∧ r.session.oauth = {} ∧ r.session.sessionID = "" ∧
      r.session.deviceID = "") :=
  C6_invalid_username (LoginGo.NewSession (some {}) "" false) {} "alice" "secret" "c2VjcmV0"
    "R2D2X" 0 (LoginGo.sampleEnv {} {}) {} rfl rfl rfl rfl rfl

/-- C7: when the key fetch succeeds and the login-submit response is decoded with
`success` false, `Login` with an empty shared secret returns exactly `ErrNeedTwoFactor`
if the response has `requires_twofactor` true, whatever its message; if it has
`requires_twofactor` false the result is the generic error carrying the message, which
is not `ErrNeedTwoFactor`. That the submit response exists means that the exponent
parsed, the password was encrypted and the transport (and, in debug mode, the dump of
the response) did not fail. -/
theorem C7_need_two_factor (s : LoginGo.Session) (c : Client) (accountName password : String)
    (timeOffset : Int) (env : LoginGo.LoginEnv) (key : LoginGo.LoginResponse)
    (answer : LoginGo.LoginSession) (exp : Int)
    (hclient : s.client = some c)
    (hreq : env.keyRequestErr = none)
    (hdo : env.keyFetch.doErr = none)
    (hbody : env.keyFetch.body = .ok key)
    (hkey : key.Success = true)
    (hexp : parseInt16 key.PublicKeyExp = .ok exp)
    (henc : (rsaEncryptPKCS1v15 env.padding (bigSetString16 key.PublicKeyMod).1 exp
      (bytesOf password)).toBool = true)
    (hsdo : env.submit.doErr = none)
    (hdump : s.debug = true → env.dumpErr = none)
    (hsbody : env.submit.body = .ok answer)
    (hfail : answer.Success = false) :
    (answer.RequiresTwoFactor = true →
      ∃ r, LoginGo.Login s accountName password "" timeOffset env = .ret r ∧
        r.err = some .ErrNeedTwoFactor) ∧
    (answer.RequiresTwoFactor = false →
      ∃ r, LoginGo.Login s accountName password "" timeOffset env = .ret r ∧
        r.err = some (.message answer.Message) ∧ r.err ≠ some .ErrNeedTwoFactor) := by
  cases hr : rsaEncryptPKCS1v15 env.padding (bigSetString16 key.PublicKeyMod).1 exp
      (bytesOf password) with
  | error e => rw [hr] at henc; exact absurd henc (by simp [Except.toBool])
  | ok rsaOut =>
    have hd : (if s.debug = true then env.dumpErr else none) = none := by
      by_cases h : s.debug = true
      · simp [h, hdump h]
      · simp [h]
    constructor <;> intro h2 <;>
      simp [LoginGo.Login, LoginGo.makeLoginRequest, LoginGo.proceedDirectLogin, hclient, hreq,
        cookiejarNew, Client.Do, hdo, hbody, hkey, hexp, hr, hsdo, hd, hsbody, hfail, h2]

set_option maxRecDepth 100000 in
/-- C7 at a concrete input: the sample key, and a submit response with `success` false,
`requires_twofactor` true and a message of its own. -/
theorem C7_need_two_factor_witness :
    ∃ r, LoginGo.Login (LoginGo.NewSession (some {}) "" true) "alice" "secret" "" 0
        (LoginGo.sampleEnv LoginGo.sampleKey
          { Success := false, RequiresTwoFactor := true, Message := "Incorrect login." }) =
        .ret r ∧ r.err = some .ErrNeedTwoFactor :=
  (C7_need_two_factor (LoginGo.NewSession (some {}) "" true) {} "alice" "secret" 0
    (LoginGo.sampleEnv LoginGo.sampleKey
      { Success := false, RequiresTwoFactor := true, Message := "Incorrect login." })
    LoginGo.sampleKey
    { Success := false, RequiresTwoFactor := true, Message := "Incorrect login." } 65537
    rfl rfl rfl rfl rfl (by decide) (by decide) rfl (fun _ => rfl) rfl rfl).1 rfl

/-! ### Steps of a login -/

open LoginGo in
/-- A failed `proceedDirectLogin` leaves sessionID and deviceID as they were, and the
oauth tokens too unless the submit answer reported success. -/
theorem proceedDirectLogin_failure (s : Session) (response : LoginResponse)
    (accountName password twoFactorCode : String) (env : LoginEnv) (r : LoginResult)
    (h : proceedDirectLogin s response accountName password twoFactorCode env = .ret r)
    (herr : r.err ≠ none) :
    r.session.sessionID = s.sessionID ∧ r.session.deviceID = s.deviceID ∧
    (r.session.oauth = s.oauth ∨
      ∃ answer, env.submit.body = .ok answer ∧ answer.Success = true) := by
  unfold proceedDirectLogin at h
  simp only [Client.Do] at h
  repeat' split at h
  all_goals first
    | (cases h; done)
    | (injection h with h; subst h; simp_all)

open LoginGo in
/-- What a successful `proceedDirectLogin` went through and what it leaves. -/
theorem proceedDirectLogin_success (s : Session) (response : LoginResponse)
    (accountName password twoFactorCode : String) (env : LoginEnv) (r : LoginResult)
    (h : proceedDirectLogin s response accountName password twoFactorCode env = .ret r)
    (hok : r.err = none) :
    ∃ c answer rnd jar,
      s.client = some c ∧ env.submit.body = .ok answer ∧ answer.Success = true ∧
      (unmarshalOAuth answer.OAuthInfo s.oauth).2 = none ∧
      env.sessionRandom = .ok rnd ∧ (c.Do env.submit).1.Jar = some jar ∧
      r.session.oauth = (unmarshalOAuth answer.OAuthInfo s.oauth).1 ∧
      r.session.sessionID = hexEncode (randomBytesOf rnd) ∧
      r.session.deviceID = deviceIDOf accountName password ∧
      r.session.client = some { (c.Do env.submit).1 with
        Jar := some (jar.SetCookies (expireStale jar.Cookies ++
          [{ Name := "sessionid", Value := hexEncode (randomBytesOf rnd) }])) } := by
  unfold proceedDirectLogin at h
  simp only [Client.Do] at h
  repeat' split at h
  all_goals first
    | (cases h; done)
    | (injection h with h; subst h; simp at hok; done)
    | (injection h with h; subst h; simp_all [Client.Do])

open LoginGo in
/-- The key fetch touches nothing of the session but its client. -/
theorem makeLoginRequest_frame (s s1 : Session) (accountName : String) (env : LoginEnv)
    (sent : List Request) (res : Except Error LoginResponse)
    (h : makeLoginRequest s accountName env = .ret (s1, sent, res)) :
    s1.oauth = s.oauth ∧ s1.sessionID = s.sessionID ∧ s1.deviceID = s.deviceID ∧
    s1.apiKey = s.apiKey ∧ s1.umqID = s.umqID ∧ s1.chatMessage = s.chatMessage ∧
    s1.language = s.language ∧ s1.debug = s.debug := by
  unfold makeLoginRequest at h
  simp only [Client.Do, cookiejarNew] at h
  repeat' split at h
  all_goals first
    | (cases h; done)
    | (injection h with h; injection h with h1 h2; subst h1; simp_all)

open LoginGo in
/-- Either entry point is the key fetch followed, when it yields a key, by
`proceedDirectLogin` with some code; a failure before that changes nothing but the
client. -/
theorem login_steps (s : Session) (accountName password sharedSecret twoFactorCode : String)
    (timeOffset : Int) (env : LoginEnv) (r : LoginResult)
    (h : Login s accountName password sharedSecret timeOffset env = .ret r ∨
      LoginTwoFactorCode s accountName password twoFactorCode env = .ret r) :
    (r.err ≠ none ∧ r.session.oauth = s.oauth ∧ r.session.sessionID = s.sessionID ∧
      r.session.deviceID = s.deviceID) ∨
    (∃ s1 key code r1, s1.oauth = s.oauth ∧ s1.sessionID = s.sessionID ∧
      s1.deviceID = s.deviceID ∧
      proceedDirectLogin s1 key accountName password code env = .ret r1 ∧
      r1.err = r.err ∧ r1.session = r.session) := by
  rcases h with h | h
  · unfold Login at h
    cases hm : makeLoginRequest s accountName env with
    | panic why => simp [hm] at h
    | ret t =>
      obtain ⟨s1, sent, res⟩ := t
      have hf := makeLoginRequest_frame s s1 accountName env sent res hm
      cases res with
      | error e =>
        simp only [hm] at h
        cases h
        exact Or.inl ⟨by simp, hf.1, hf.2.1, hf.2.2.1⟩
      | ok key =>
        simp only [hm] at h
        split at h
        · split at h
          · cases h
            exact Or.inl ⟨by simp, hf.1, hf.2.1, hf.2.2.1⟩
          · rename_i code hg
            cases hp : proceedDirectLogin s1 key accountName password code env with
            | panic why => simp [hp] at h
            | ret r1 =>
              simp only [hp] at h
              cases h
              exact Or.inr ⟨s1, key, code, r1, hf.1, hf.2.1, hf.2.2.1, hp, rfl, rfl⟩
        · cases hp : proceedDirectLogin s1 key accountName password "" env with
          | panic why => simp [hp] at h
          | ret r1 =>
            simp only [hp] at h
            cases h
            exact Or.inr ⟨s1, key, "", r1, hf.1, hf.2.1, hf.2.2.1, hp, rfl, rfl⟩
  · unfold LoginTwoFactorCode at h
    cases hm : makeLoginRequest s accountName env with
    | panic why => simp [hm] at h
    | ret t =>
      obtain ⟨s1, sent, res⟩ := t
      have hf := makeLoginRequest_frame s s1 accountName env sent res hm
      cases res with
      | error e =>
        simp only [hm] at h
        cases h
        exact Or.inl ⟨by simp, hf.1, hf.2.1, hf.2.2.1⟩
      | ok key =>
        simp only [hm] at h
        cases hp : proceedDirectLogin s1 key accountName password twoFactorCode env with
        | panic why => simp [hp] at h
        | ret r1 =>
          simp only [hp] at h
          cases h
          exact Or.inr ⟨s1, key, twoFactorCode, r1, hf.1, hf.2.1, hf.2.2.1, hp, rfl, rfl⟩


/-! ### Hexadecimal output -/

/-- Every digit `hexDigit` produces for a value below 16 is one of `0-9a-f`. -/
theorem hexDigit_mem (n : Nat) (h : n < 16) : hexDigit n ∈ "0123456789abcdef".data := by
  interval_cases n <;> decide

/-- The encoding of a byte list has two characters per byte. -/
theorem hexEncode_length (bs : List Nat) : (hexEncode bs).length = 2 * bs.length := by
  induction bs with
  | nil => rfl
  | cons b bs ih =>
    simp only [hexEncode, String.length, List.flatMap_cons, List.length_append, hexByte,
      List.length_cons, List.length_nil] at ih ⊢
    omega

/-- The encoding of a byte list holds lowercase hexadecimal digits only. -/
theorem hexEncode_chars (bs : List Nat) :
    ∀ c ∈ (hexEncode bs).data, c ∈ "0123456789abcdef".data := by
  intro c hc
  simp only [hexEncode, List.mem_flatMap, hexByte, List.mem_cons, List.mem_singleton,
    List.not_mem_nil, or_false] at hc
  obtain ⟨b, _, hb | hb⟩ := hc
  · rw [hb]; exact hexDigit_mem _ (Nat.mod_lt _ (by decide))
  · rw [hb]; exact hexDigit_mem _ (Nat.mod_lt _ (by decide))

/-- A digest has sixteen bytes. -/
theorem md5_sum_length (msg : List Nat) : (MD5.sum msg).length = 16 := by
  simp [MD5.sum, MD5.wordBytes]


/-- C9: for every account name and password, the device ID a successful login (by
either entry point) leaves is `android:` followed by five dash-separated groups, the
`i`-th being the lowercase hexadecimal rendering of bytes `2i` and `2i+1` of the MD5
digest of the account name concatenated with the password. Each group has exactly four
characters, all in `0-9a-f`, the whole has 32 characters, and nothing but the two
credentials enters it. -/
theorem C9_device_id (s : LoginGo.Session)
    (accountName password sharedSecret twoFactorCode : String) (timeOffset : Int)
    (env : LoginGo.LoginEnv) (r : LoginGo.LoginResult)
    (h : LoginGo.Login s accountName password sharedSecret timeOffset env = .ret r ∨
      LoginGo.LoginTwoFactorCode s accountName password twoFactorCode env = .ret r)
    (hok : r.err = none) :
    ∃ g : Nat → String,
      (∀ i, g i = hexEncode (((MD5.sum (bytesOf (accountName ++ password))).drop (2 * i)).take 2)) ∧
      r.session.deviceID =
        "android:" ++ g 0 ++ "-" ++ g 1 ++ "-" ++ g 2 ++ "-" ++ g 3 ++ "-" ++ g 4 ∧
      (∀ i, i < 5 → (g i).length = 4 ∧ ∀ c ∈ (g i).data, c ∈ "0123456789abcdef".data) ∧
      r.session.deviceID.length = 32 := by
  rcases login_steps s accountName password sharedSecret twoFactorCode timeOffset env r h with
    hf | ⟨s1, key, code, r1, _, _, _, hp, he, hs⟩
  · exact absurd hok hf.1
  · obtain ⟨c, answer, rnd, jar, _, _, _, _, _, _, _, _, hd, _⟩ :=
      proceedDirectLogin_success s1 key accountName password code env r1 hp (he.trans hok)
    have hlen : ∀ i, i < 5 → (hexEncode (((MD5.sum (bytesOf (accountName ++ password))).drop
        (2 * i)).take 2)).length = 4 := by
      intro i hi
      rw [hexEncode_length, List.length_take, List.length_drop, md5_sum_length]
      omega
    refine ⟨fun i => hexEncode (((MD5.sum (bytesOf (accountName ++ password))).drop
      (2 * i)).take 2), fun _ => rfl, ?_, fun i hi => ⟨hlen i hi, hexEncode_chars _⟩, ?_⟩
    · rw [← hs, hd]
      simp [LoginGo.deviceIDOf]
    · rw [← hs, hd]
      have h0 := hlen 0 (by decide)
      have h1 := hlen 1 (by decide)
      have h2 := hlen 2 (by decide)
      have h3 := hlen 3 (by decide)
      have h4 := hlen 4 (by decide)
      simp only [Nat.mul_zero, Nat.mul_one, List.drop_zero] at h0 h1 h2 h3 h4
      simp only [LoginGo.deviceIDOf, String.length_append, h0, h1, h2, h3, h4]
      rfl


set_option maxRecDepth 1000000 in
/-- C9 at a concrete input: account "alice", password "secret". -/
theorem C9_device_id_witness :
    ∃ r, LoginGo.Login (LoginGo.NewSession (some {}) "" false) "alice" "secret" "" 0
        (LoginGo.sampleEnv LoginGo.sampleKey LoginGo.sampleAnswer) = .ret r ∧
      r.err = none ∧ r.session.deviceID = "android:c4e3-1313-222c-f05f-cdd1" := by
  have hd : (LoginGo.Login (LoginGo.NewSession (some {}) "" false) "alice" "secret" "" 0
      (LoginGo.sampleEnv LoginGo.sampleKey LoginGo.sampleAnswer)).result?.map (fun r => r.err) =
      some none := by decide
  cases hL : LoginGo.Login (LoginGo.NewSession (some {}) "" false) "alice" "secret" "" 0
      (LoginGo.sampleEnv LoginGo.sampleKey LoginGo.sampleAnswer) with
  | panic why => rw [hL] at hd; exact absurd hd (by simp [Run.result?])
  | ret r =>
    rw [hL] at hd
    have hok : r.err = none := by simpa [Run.result?] using hd
    obtain ⟨g, hg, hid, _, _⟩ :=
      C9_device_id (LoginGo.NewSession (some {}) "" false) "alice" "secret" "" "" 0
        (LoginGo.sampleEnv LoginGo.sampleKey LoginGo.sampleAnswer) r (Or.inl hL) hok
    refine ⟨r, rfl, hok, ?_⟩
    rw [hid, hg 0, hg 1, hg 2, hg 3, hg 4]
    decide

/-! ### The session id and its cookie -/

/-- Overwriting the value of the entries of one name leaves the value under that name,
when there is such an entry. -/
theorem find_overwritten (es : List Entry) (name value : String)
    (ha : (es.any fun e => decide (e.Name = name)) = true) :
    ((es.map (fun e => if e.Name = name then { e with Value := value } else e)).find?
      (fun e => e.Name = name)).map Entry.Value = some value := by
  induction es with
  | nil => simp at ha
  | cons e es ih =>
    by_cases he : e.Name = name
    · simp [he]
    · have ha1 : (es.any fun e => decide (e.Name = name)) = true := by
        simpa [he] using ha
      simpa [he] using ih ha1

/-- An entry appended to entries of other names is the one found under its name. -/
theorem find_appended (es : List Entry) (name value : String)
    (ha : ¬ (es.any fun e => decide (e.Name = name)) = true) :
    ((es ++ [(⟨name, value⟩ : Entry)]).find? (fun e => e.Name = name)).map Entry.Value =
      some value := by
  induction es with
  | nil => simp
  | cons e es ih =>
    by_cases he : e.Name = name
    · simp [he] at ha
    · have ha1 : ¬ (es.any fun e => decide (e.Name = name)) = true := by
        simpa [he] using ha
      simpa [he] using ih ha1

/-- Storing a cookie that does not expire leaves its value under its name. -/
theorem setEntry_find (es : List Entry) (name value : String) :
    ((setEntry es { Name := name, Value := value }).find? (fun e => e.Name = name)).map
      Entry.Value = some value := by
  unfold setEntry
  simp only [show ¬ ((0 : Int) < 0) by decide, if_false]
  by_cases ha : (es.any fun e => decide (e.Name = name)) = true
  · rw [if_pos ha]; exact find_overwritten es name value ha
  · rw [if_neg ha]; exact find_appended es name value ha

/-- The last cookie given to `SetCookies`, when it does not expire, is in the jar
afterwards with the value given. -/
theorem SetCookies_last_value (j : Jar) (cookies : List Cookie) (name value : String) :
    (j.SetCookies (cookies ++ [{ Name := name, Value := value }])).value? name = some value := by
  simp only [Jar.SetCookies, Jar.value?, List.foldl_append, List.foldl_cons, List.foldl_nil]
  exact setEntry_find _ name value

/-- C10: after every successful login (by either entry point) the sessionID is the
lowercase hexadecimal encoding of the six bytes the random source yielded during that
login, it has exactly 12 characters, all in `0-9a-f`, and the jar holds a `sessionid`
cookie with that same string as its value. -/
theorem C10_session_id (s : LoginGo.Session)
    (accountName password sharedSecret twoFactorCode : String) (timeOffset : Int)
    (env : LoginGo.LoginEnv) (r : LoginGo.LoginResult)
    (h : LoginGo.Login s accountName password sharedSecret timeOffset env = .ret r ∨
      LoginGo.LoginTwoFactorCode s accountName password twoFactorCode env = .ret r)
    (hok : r.err = none) :
    ∃ rnd c jar,
      env.sessionRandom = .ok rnd ∧
      r.session.sessionID = hexEncode ((List.range 6).map (fun i => rnd.getD i 0 % 256)) ∧
      r.session.sessionID.length = 12 ∧
      (∀ ch ∈ r.session.sessionID.data, ch ∈ "0123456789abcdef".data) ∧
      r.session.client = some c ∧ c.Jar = some jar ∧
      jar.value? "sessionid" = some r.session.sessionID := by
  rcases login_steps s accountName password sharedSecret twoFactorCode timeOffset env r h with
    hf | ⟨s1, key, code, r1, _, _, _, hp, he, hs⟩
  · exact absurd hok hf.1
  · obtain ⟨c, answer, rnd, jar, _, _, _, _, hrnd, _, _, hsid, _, hcl⟩ :=
      proceedDirectLogin_success s1 key accountName password code env r1 hp (he.trans hok)
    rw [hs] at hsid hcl
    refine ⟨rnd, _, _, hrnd, hsid, ?_, ?_, hcl, rfl, ?_⟩
    · rw [hsid, hexEncode_length]; simp [LoginGo.randomBytesOf]
    · rw [hsid]; exact hexEncode_chars _
    · rw [hsid]; exact SetCookies_last_value _ _ _ _

set_option maxRecDepth 1000000 in
/-- C10 at a concrete input: the random source yields the bytes 1 to 6. -/
theorem C10_session_id_witness :
    ∃ r, LoginGo.LoginTwoFactorCode (LoginGo.NewSession (some {}) "" false) "alice" "secret"
        "R2D2X" (LoginGo.sampleEnv LoginGo.sampleKey LoginGo.sampleAnswer) = .ret r ∧
      r.err = none ∧ r.session.sessionID = "010203040506" := by
  have hd : (LoginGo.LoginTwoFactorCode (LoginGo.NewSession (some {}) "" false) "alice" "secret"
      "R2D2X" (LoginGo.sampleEnv LoginGo.sampleKey LoginGo.sampleAnswer)).result?.map
      (fun r => r.err) = some none := by decide
  cases hL : LoginGo.LoginTwoFactorCode (LoginGo.NewSession (some {}) "" false) "alice" "secret"
      "R2D2X" (LoginGo.sampleEnv LoginGo.sampleKey LoginGo.sampleAnswer) with
  | panic why => rw [hL] at hd; exact absurd hd (by simp [Run.result?])
  | ret r =>
    rw [hL] at hd
    have hok : r.err = none := by simpa [Run.result?] using hd
    obtain ⟨rnd, _, _, hrnd, hsid, _⟩ :=
      C10_session_id (LoginGo.NewSession (some {}) "" false) "alice" "secret" "" "R2D2X" 0
        (LoginGo.sampleEnv LoginGo.sampleKey LoginGo.sampleAnswer) r (Or.inr hL) hok
    refine ⟨r, rfl, hok, ?_⟩
    have hr : rnd = [1, 2, 3, 4, 5, 6] := by
      have : (Except.ok [1, 2, 3, 4, 5, 6] : Except Error (List Nat)) = .ok rnd := hrnd
      injection this with this
      exact this.symm
    rw [hsid, hr]
    decide


/-! ### The account identifier of the oauth payload -/

open LoginGo in
/-- A quoted steamid stored without error is the decimal number it spells, or `null`,
which stores nothing. -/
theorem storeSteamID_value (item : String) (st st1 : DecodeState)
    (h : storeSteamID item st = .ok st1) (hs : st.saved = none) (hs1 : st1.saved = none) :
    st1.oauth.SteamID = (parseUint10 item).getD st.oauth.SteamID := by
  unfold storeSteamID at h
  repeat' split at h
  all_goals first
    | (cases h; done)
    | (injection h with h; subst h; simp [DecodeState.save, hs] at hs1; done)
    | (injection h with h; subst h; simp_all; done)
    | (injection h with h; subst h; rename_i hn; subst hn; rfl)

open LoginGo in
/-- Storing a JSON value into a string field leaves the account identifier alone. -/
theorem storeString_steamID (v : Json) (set : String → OAuth → OAuth) (st : DecodeState)
    (hset : ∀ t o, (set t o).SteamID = o.SteamID) :
    (storeString v set st).oauth.SteamID = st.oauth.SteamID := by
  unfold storeString
  split
  · simp [hset]
  · rfl
  · simp only [DecodeState.save]; split <;> rfl

open LoginGo in
/-- A member decoded without error sets the account identifier exactly when it gives
one. -/
theorem decodeMember_value (key : String) (v : Json) (st st1 : DecodeState)
    (h : decodeMember key v st = .ok st1) (hs : st.saved = none) (hs1 : st1.saved = none) :
    st1.oauth.SteamID = (steamIDMember (key, v)).getD st.oauth.SteamID := by
  unfold decodeMember at h
  unfold steamIDMember
  by_cases hk : Json.keyMatches key "steamid" = true
  · simp only [hk, if_true] at h ⊢
    cases v with
    | null => simp only at h; cases h; rfl
    | str item => exact storeSteamID_value item st st1 h hs hs1
    | bool b => simp only at h; cases h; simp [DecodeState.save, hs] at hs1
    | num t => simp only at h; cases h; simp [DecodeState.save, hs] at hs1
    | arr xs => simp only at h; cases h; simp [DecodeState.save, hs] at hs1
    | obj ms => simp only at h; cases h; simp [DecodeState.save, hs] at hs1
  · simp only [hk, Bool.false_eq_true, if_false] at h ⊢
    simp only [Option.getD_none]
    repeat' split at h
    all_goals
      injection h with h
      subst h
      first
        | rfl
        | exact storeString_steamID _ _ _ (fun _ _ => rfl)

open LoginGo in
/-- Storing into a string field never clears a saved error. -/
theorem storeString_saved (v : Json) (set : String → OAuth → OAuth) (st : DecodeState)
    (e : Error) (hs : st.saved = some e) : (storeString v set st).saved = some e := by
  unfold storeString
  split <;> simp [DecodeState.save, hs]

open LoginGo in
/-- Storing a quoted steamid never clears a saved error. -/
theorem storeSteamID_saved (item : String) (st st1 : DecodeState) (e : Error)
    (h : storeSteamID item st = .ok st1) (hs : st.saved = some e) : st1.saved = some e := by
  unfold storeSteamID at h
  repeat' split at h
  all_goals first
    | (cases h; done)
    | (injection h with h; subst h; simp_all [DecodeState.save])

open LoginGo in
/-- A member never clears a saved error. -/
theorem decodeMember_saved (key : String) (v : Json) (st st1 : DecodeState) (e : Error)
    (h : decodeMember key v st = .ok st1) (hs : st.saved = some e) :
    st1.saved = some e := by
  unfold decodeMember at h
  by_cases hk : Json.keyMatches key "steamid" = true
  · simp only [hk, if_true] at h
    cases v with
    | null => simp only at h; cases h; exact hs
    | str item => exact storeSteamID_saved item st st1 e h hs
    | bool b => simp only at h; cases h; simp [DecodeState.save, hs]
    | num t => simp only at h; cases h; simp [DecodeState.save, hs]
    | arr xs => simp only at h; cases h; simp [DecodeState.save, hs]
    | obj ms => simp only at h; cases h; simp [DecodeState.save, hs]
  · simp only [hk, Bool.false_eq_true, if_false] at h
    repeat' split at h
    all_goals
      injection h with h
      subst h
      first
        | exact hs
        | exact storeString_saved _ _ _ e hs

open LoginGo in
/-- Once an error is saved the decoding returns an error. -/
theorem decodeMembers_saved (ms : List (String × Json)) (st : DecodeState) (e : Error)
    (hs : st.saved = some e) : (decodeMembers ms st).2 ≠ none := by
  induction ms generalizing st with
  | nil => simp [decodeMembers, hs]
  | cons m ms ih =>
    obtain ⟨key, v⟩ := m
    unfold decodeMembers
    cases hm : decodeMember key v st with
    | error e1 => simp
    | ok st1 => exact ih st1 (decodeMember_saved key v st st1 e hm hs)

open LoginGo in
/-- A decoding without error leaves the number of the last member that gives one, or
the identifier held before. -/
theorem decodeMembers_value (ms : List (String × Json)) (st : DecodeState)
    (hs : st.saved = none) (hok : (decodeMembers ms st).2 = none) :
    (decodeMembers ms st).1.SteamID =
      ((ms.filterMap steamIDMember).getLast?).getD st.oauth.SteamID := by
  induction ms generalizing st with
  | nil => simp [decodeMembers]
  | cons m ms ih =>
    obtain ⟨key, v⟩ := m
    unfold decodeMembers at hok ⊢
    cases hm : decodeMember key v st with
    | error e1 => simp [hm] at hok
    | ok st1 =>
      simp only [hm] at hok ⊢
      have hs1 : st1.saved = none := by
        cases hsv : st1.saved with
        | none => rfl
        | some e => exact absurd hok (decodeMembers_saved ms st1 e hsv)
      rw [ih st1 hs1 hok, decodeMember_value key v st st1 hm hs hs1]
      cases hv : steamIDMember (key, v) with
      | none => simp [List.filterMap_cons, hv]
      | some n => simp [List.filterMap_cons, hv, List.getLast?_cons]
open LoginGo in
/-- A payload decoded without error is valid JSON and leaves the identifier it carries,
or the one held before when it carries none. -/
theorem unmarshalOAuth_steamID (data : String) (o : OAuth)
    (hok : (unmarshalOAuth data o).2 = none) :
    ∃ doc, Json.parse data = some doc ∧
      (unmarshalOAuth data o).1.SteamID = (carriedSteamID doc).getD o.SteamID := by
  unfold unmarshalOAuth at hok ⊢
  cases hp : Json.parse data with
  | none => simp [hp] at hok
  | some doc =>
    refine ⟨doc, rfl, ?_⟩
    cases doc with
    | null => rfl
    | obj ms =>
      simp only [hp] at hok
      exact decodeMembers_value ms ⟨o, none⟩ rfl hok
    | bool b => simp [hp] at hok
    | num t => simp [hp] at hok
    | str t => simp [hp] at hok
    | arr xs => simp [hp] at hok

set_option maxRecDepth 100000 in
/-- C4 (counterexample): a login that succeeds on a fresh session while the oauth payload
gives the steamid as "0", or omits it, leaves the account identifier zero. -/
theorem C4_counterexample :
    ((LoginGo.Login (LoginGo.NewSession (some {}) "" false) "alice" "secret" "" 0
        (LoginGo.sampleEnv LoginGo.sampleKey
          { Success := true, OAuthInfo := "\x7b\"steamid\":\"0\",\"oauth_token\":\"t\"\x7d" })).result?.map
      (fun r => (r.err, r.session.oauth.SteamID))) = some (none, 0) ∧
    ((LoginGo.Login (LoginGo.NewSession (some {}) "" false) "alice" "secret" "" 0
        (LoginGo.sampleEnv LoginGo.sampleKey
          { Success := true, OAuthInfo := "\x7b\"oauth_token\":\"t\"\x7d" })).result?.map
      (fun r => (r.err, r.session.oauth.SteamID))) = some (none, 0) := by
  decide

/-- C4 (amended): after every successful login (by either entry point) the account
identifier is the one the embedded oauth JSON carries, the decimal number of its last
`steamid` member, and when the payload carries none it is the identifier the session
held before the login. -/
theorem C4_steamid_from_payload (s : LoginGo.Session)
    (accountName password sharedSecret twoFactorCode : String) (timeOffset : Int)
    (env : LoginGo.LoginEnv) (r : LoginGo.LoginResult)
    (h : LoginGo.Login s accountName password sharedSecret timeOffset env = .ret r ∨
      LoginGo.LoginTwoFactorCode s accountName password twoFactorCode env = .ret r)
    (hok : r.err = none) :
    ∃ answer doc,
      env.submit.body = .ok answer ∧ answer.Success = true ∧
      Json.parse answer.OAuthInfo = some doc ∧
      r.session.oauth.SteamID = (LoginGo.carriedSteamID doc).getD s.oauth.SteamID := by
  rcases login_steps s accountName password sharedSecret twoFactorCode timeOffset env r h with
    hf | ⟨s1, key, code, r1, ho, _, _, hp, he, hs⟩
  · exact absurd hok hf.1
  · obtain ⟨c, answer, rnd, jar, _, hbody, hsucc, hnone, _, _, hoauth, _⟩ :=
      proceedDirectLogin_success s1 key accountName password code env r1 hp (he.trans hok)
    obtain ⟨doc, hdoc, hval⟩ := unmarshalOAuth_steamID answer.OAuthInfo s1.oauth hnone
    refine ⟨answer, doc, hbody, hsucc, hdoc, ?_⟩
    rw [← hs, hoauth, hval, ho]

set_option maxRecDepth 1000000 in
/-- C4 (amended) at a concrete input: the sample answer carries 76561197960287930. -/
theorem C4_steamid_from_payload_witness :
    ∃ r, LoginGo.Login (LoginGo.NewSession (some {}) "" false) "alice" "secret" "" 0
        (LoginGo.sampleEnv LoginGo.sampleKey LoginGo.sampleAnswer) = .ret r ∧
      r.err = none ∧ r.session.oauth.SteamID = 76561197960287930 := by
  have hd : (LoginGo.Login (LoginGo.NewSession (some {}) "" false) "alice" "secret" "" 0
      (LoginGo.sampleEnv LoginGo.sampleKey LoginGo.sampleAnswer)).result?.map (fun r => r.err) =
      some none := by decide
  have hc : (Json.parse LoginGo.sampleAnswer.OAuthInfo).map LoginGo.carriedSteamID =
      some (some 76561197960287930) := by decide
  cases hL : LoginGo.Login (LoginGo.NewSession (some {}) "" false) "alice" "secret" "" 0
      (LoginGo.sampleEnv LoginGo.sampleKey LoginGo.sampleAnswer) with
  | panic why => rw [hL] at hd; exact absurd hd (by simp [Run.result?])
  | ret r =>
    rw [hL] at hd
    have hok : r.err = none := by simpa [Run.result?] using hd
    obtain ⟨answer, doc, hbody, _, hdoc, hid⟩ :=
      C4_steamid_from_payload (LoginGo.NewSession (some {}) "" false) "alice" "secret" "" "" 0
        (LoginGo.sampleEnv LoginGo.sampleKey LoginGo.sampleAnswer) r (Or.inl hL) hok
    have ha : LoginGo.sampleAnswer = answer := by
      have : (Except.ok LoginGo.sampleAnswer : Except Error LoginGo.LoginSession) = .ok answer :=
        hbody
      injection this
    subst ha
    rw [hdoc] at hc
    have hcar : LoginGo.carriedSteamID doc = some 76561197960287930 := by simpa using hc
    refine ⟨r, rfl, hok, ?_⟩
    rw [hid, hcar]
    rfl

set_option maxRecDepth 100000 in
/-- C8 (the code at the failing input): a modulus string that is no hexadecimal number
is not rejected by its parse. With the sample modulus followed by `zz`, `SetString`
reports failure, yet the login goes on with the digits scanned so far, encrypts the
password and sends the login-submit request; with an empty modulus the call fails, but
in the encryption, with the error for a message too long for the key. -/
theorem C8_malformed_modulus_not_rejected :
    (bigSetString16 (LoginGo.sampleModulus ++ "zz")).2 = false ∧
    ((LoginGo.Login (LoginGo.NewSession (some {}) "" false) "alice" "secret" "" 0
        (LoginGo.sampleEnv
          { LoginGo.sampleKey with PublicKeyMod := LoginGo.sampleModulus ++ "zz" }
          { Success := false, Message := "Incorrect login." })).result?.map
      (fun r => (r.err, r.sent.map (fun q => q.URL)))) =
      some (some (.message "Incorrect login."),
        ["https://steamcommunity.com/login/getrsakey?username=alice",
         "https://steamcommunity.com/login/dologin/"]) ∧
    (bigSetString16 "").2 = false ∧
    ((LoginGo.Login (LoginGo.NewSession (some {}) "" false) "alice" "secret" "" 0
        (LoginGo.sampleEnv { LoginGo.sampleKey with PublicKeyMod := "" }
          { Success := false, Message := "Incorrect login." })).result?.map
      (fun r => (r.err, r.sent.map (fun q => q.URL)))) =
      some (some (.rsa "message too long for RSA key size"),
        ["https://steamcommunity.com/login/getrsakey?username=alice"]) := by
  decide

/-! ### States a session can be left in -/

/-- A device id has 32 characters. -/
theorem deviceIDOf_length (accountName password : String) :
    (LoginGo.deviceIDOf accountName password).length = 32 := by
  have hlen : ∀ i, i < 5 → (hexEncode (((MD5.sum (bytesOf (accountName ++ password))).drop
      (2 * i)).take 2)).length = 4 := by
    intro i hi
    rw [hexEncode_length, List.length_take, List.length_drop, md5_sum_length]
    omega
  have h0 := hlen 0 (by decide)
  have h1 := hlen 1 (by decide)
  have h2 := hlen 2 (by decide)
  have h3 := hlen 3 (by decide)
  have h4 := hlen 4 (by decide)
  simp only [Nat.mul_zero, Nat.mul_one, List.drop_zero] at h0 h1 h2 h3 h4
  simp only [LoginGo.deviceIDOf, String.length_append, h0, h1, h2, h3, h4]
  rfl

/-- A session id has 12 characters. -/
theorem sessionID_length (rnd : List Nat) :
    (hexEncode (LoginGo.randomBytesOf rnd)).length = 12 := by
  rw [hexEncode_length]; simp [LoginGo.randomBytesOf]

open LoginGo in
/-- What one call of either entry point does to the session: on success it leaves a
12-character sessionID, a 32-character deviceID and a `sessionid` cookie equal to the
sessionID; on failure it leaves sessionID and deviceID as they were, and the oauth
tokens as well unless the submit answer reported success. -/
theorem login_effect (s : Session) (accountName password sharedSecret twoFactorCode : String)
    (timeOffset : Int) (env : LoginEnv) (r : LoginResult)
    (h : Login s accountName password sharedSecret timeOffset env = .ret r ∨
      LoginTwoFactorCode s accountName password twoFactorCode env = .ret r) :
    (r.err = none →
      r.session.sessionID.length = 12 ∧ r.session.deviceID.length = 32 ∧
      ∃ c jar, r.session.client = some c ∧ c.Jar = some jar ∧
        jar.value? "sessionid" = some r.session.sessionID) ∧
    (r.err ≠ none →
      r.session.sessionID = s.sessionID ∧ r.session.deviceID = s.deviceID ∧
      (r.session.oauth = s.oauth ∨
        ∃ answer, env.submit.body = .ok answer ∧ answer.Success = true)) := by
  rcases login_steps s accountName password sharedSecret twoFactorCode timeOffset env r h with
    hf | ⟨s1, key, code, r1, ho, hsid, hdev, hp, he, hs⟩
  · exact ⟨fun hok => absurd hok hf.1, fun _ => ⟨hf.2.2.1, hf.2.2.2, Or.inl hf.2.1⟩⟩
  · constructor
    · intro hok
      obtain ⟨c, answer, rnd, jar, _, _, _, _, _, _, _, hsid1, hdev1, hcl⟩ :=
        proceedDirectLogin_success s1 key accountName password code env r1 hp (he.trans hok)
      rw [hs] at hsid1 hdev1 hcl
      refine ⟨?_, ?_, _, _, hcl, rfl, ?_⟩
      · rw [hsid1]; exact sessionID_length rnd
      · rw [hdev1]; exact deviceIDOf_length _ _
      · rw [hsid1]; exact SetCookies_last_value _ _ _ _
    · intro herr
      have hf := proceedDirectLogin_failure s1 key accountName password code env r1 hp
        (by rw [he]; exact herr)
      rw [hs, hsid, hdev, ho] at hf
      exact hf

set_option maxRecDepth 1000000 in
/-- C5 (counterexample): two sessions the code leaves that are neither fully
unauthenticated nor fully authenticated. After a successful login followed by a login
that fails on the key fetch, the session keeps its oauth token and sessionID while the
jar, replaced by the failed attempt, holds no `sessionid` cookie any more. After a
successful login whose oauth payload has no token, the sessionID is set while the oauth
token is empty. -/
theorem C5_counterexample :
    ((LoginGo.Login (LoginGo.NewSession (some {}) "" false) "alice" "secret" "" 0
        (LoginGo.sampleEnv LoginGo.sampleKey LoginGo.sampleAnswer)).result?.map
      (fun r1 => (r1.err, LoginGo.cookieOf r1.session "sessionid"))) =
      some (none, some "010203040506") ∧
    ((LoginGo.Login (LoginGo.NewSession (some {}) "" false) "alice" "secret" "" 0
        (LoginGo.sampleEnv LoginGo.sampleKey LoginGo.sampleAnswer)).result?.bind
      (fun r1 =>
        (LoginGo.Login r1.session "alice" "secret" "" 0
          (LoginGo.sampleEnv {} {})).result?.map
        (fun r2 => (r2.err, r2.session.oauth.Token, r2.session.sessionID,
          LoginGo.cookieOf r2.session "sessionid")))) =
      some (some .ErrInvalidUsername, "f00d", "010203040506", none) ∧
    ((LoginGo.Login (LoginGo.NewSession (some {}) "" false) "alice" "secret" "" 0
        (LoginGo.sampleEnv LoginGo.sampleKey { Success := true, OAuthInfo := "\x7b\x7d" })).result?.map
      (fun r => (r.err, r.session.oauth.Token, r.session.sessionID))) =
      some (none, "", "010203040506") := by
  decide

/-- C5 (amended): every session reachable from `NewSession` by calls of `Login` and
`LoginTwoFactorCode`, successful or failed, either has never completed a login (empty
sessionID and deviceID) or carries a 12-character sessionID and a 32-character deviceID;
a successful call leaves a `sessionid` cookie in the jar equal to the sessionID; a
failed call leaves sessionID and deviceID as they were, and the oauth tokens too unless
the submit answer reported success. -/
theorem C5_session_states :
    (∀ s, LoginGo.Reachable s →
      (s.sessionID = "" ∧ s.deviceID = "") ∨
      (s.sessionID.length = 12 ∧ s.deviceID.length = 32)) ∧
    (∀ (s : LoginGo.Session) (accountName password sharedSecret twoFactorCode : String)
      (timeOffset : Int) (env : LoginGo.LoginEnv) (r : LoginGo.LoginResult),
      (LoginGo.Login s accountName password sharedSecret timeOffset env = .ret r ∨
        LoginGo.LoginTwoFactorCode s accountName password twoFactorCode env = .ret r) →
      (r.err = none →
        ∃ c jar, r.session.client = some c ∧ c.Jar = some jar ∧
          jar.value? "sessionid" = some r.session.sessionID) ∧
      (r.err ≠ none →
        r.session.sessionID = s.sessionID ∧ r.session.deviceID = s.deviceID ∧
        (r.session.oauth = s.oauth ∨
          ∃ answer, env.submit.body = .ok answer ∧ answer.Success = true))) := by
  constructor
  · intro s hs
    induction hs with
    | fresh client apiKey debug => exact Or.inl ⟨rfl, rfl⟩
    | login s accountName password sharedSecret timeOffset env r _ hrun ih =>
      have he := login_effect s accountName password sharedSecret "" timeOffset env r
        (Or.inl hrun)
      by_cases hok : r.err = none
      · exact Or.inr ⟨(he.1 hok).1, (he.1 hok).2.1⟩
      · rw [(he.2 hok).1, (he.2 hok).2.1]; exact ih
    | loginCode s accountName password twoFactorCode env r _ hrun ih =>
      have he := login_effect s accountName password "" twoFactorCode 0 env r (Or.inr hrun)
      by_cases hok : r.err = none
      · exact Or.inr ⟨(he.1 hok).1, (he.1 hok).2.1⟩
      · rw [(he.2 hok).1, (he.2 hok).2.1]; exact ih
  · intro s accountName password sharedSecret twoFactorCode timeOffset env r h
    have he := login_effect s accountName password sharedSecret twoFactorCode timeOffset env r h
    exact ⟨fun hok => (he.1 hok).2.2, he.2⟩

set_option maxRecDepth 1000000 in
/-- C5 (amended) at a concrete input: the session a successful login on a fresh session
leaves is reachable, has a 12-character sessionID and a 32-character deviceID. -/
theorem C5_session_states_witness :
    ∃ r, LoginGo.Login (LoginGo.NewSession (some {}) "" false) "alice" "secret" "" 0
        (LoginGo.sampleEnv LoginGo.sampleKey LoginGo.sampleAnswer) = .ret r ∧
      LoginGo.Reachable r.session ∧ r.session.sessionID = "010203040506" ∧
      ((r.session.sessionID = "" ∧ r.session.deviceID = "") ∨
        (r.session.sessionID.length = 12 ∧ r.session.deviceID.length = 32)) := by
  have hd : (LoginGo.Login (LoginGo.NewSession (some {}) "" false) "alice" "secret" "" 0
      (LoginGo.sampleEnv LoginGo.sampleKey LoginGo.sampleAnswer)).result?.map
      (fun r => r.session.sessionID) = some "010203040506" := by decide
  cases hL : LoginGo.Login (LoginGo.NewSession (some {}) "" false) "alice" "secret" "" 0
      (LoginGo.sampleEnv LoginGo.sampleKey LoginGo.sampleAnswer) with
  | panic why => rw [hL] at hd; exact absurd hd (by simp [Run.result?])
  | ret r =>
    rw [hL] at hd
    have hsid : r.session.sessionID = "010203040506" := by simpa [Run.result?] using hd
    have hreach : LoginGo.Reachable r.session :=
      LoginGo.Reachable.login _ _ _ _ _ _ r (LoginGo.Reachable.fresh (some {}) "" false) hL
    exact ⟨r, rfl, hreach, hsid, C5_session_states.1 r.session hreach⟩

/-! ### The jar as a map from names to values -/

/-- Deleting the entries of one name empties that name and leaves the others. -/
theorem value_filter (es : List Entry) (m n : String) :
    (Jar.mk (es.filter (fun e => e.Name ≠ m))).value? n =
      if n = m then none else (Jar.mk es).value? n := by
  simp only [Jar.value?]
  induction es with
  | nil => simp
  | cons e es ih =>
    obtain ⟨name, value⟩ := e
    by_cases hm : name = m
    · subst hm
      by_cases hn : n = name
      · subst hn
        simp [List.filter_cons]
      · have hn1 : ¬ name = n := fun h => hn h.symm
        simpa [List.filter_cons, List.find?_cons, hn, hn1] using ih
    · by_cases hn : name = n
      · subst hn
        simp [List.filter_cons, List.find?_cons, hm]
      · simpa [List.filter_cons, List.find?_cons, hm, hn] using ih

/-- Overwriting the value under one name leaves the other names. -/
theorem value_overwritten_other (es : List Entry) (m v n : String) (hn : n ≠ m) :
    (Jar.mk (es.map (fun e => if e.Name = m then { e with Value := v } else e))).value? n =
      (Jar.mk es).value? n := by
  simp only [Jar.value?]
  induction es with
  | nil => simp
  | cons e es ih =>
    obtain ⟨name, value⟩ := e
    simp only [List.map_cons, List.find?_cons]
    by_cases hm : name = m
    · subst hm
      have hn1 : ¬ name = n := fun h => hn h.symm
      simpa [hn1] using ih
    · by_cases he : name = n
      · subst he
        simp [hn]
      · simpa [hm, he] using ih

/-- Appending an entry leaves the other names. -/
theorem value_appended_other (es : List Entry) (m v n : String) (hn : n ≠ m) :
    (Jar.mk (es ++ [(⟨m, v⟩ : Entry)])).value? n = (Jar.mk es).value? n := by
  simp only [Jar.value?]
  induction es with
  | nil => simp [Ne.symm hn]
  | cons e es ih =>
    obtain ⟨name, value⟩ := e
    simp only [List.cons_append, List.find?_cons]
    by_cases he : name = n
    · simp [he]
    · simpa [he] using ih

/-- Storing a cookie is an update of the map: its name is emptied when `MaxAge` is
negative and set to its value otherwise, and the other names are left alone. -/
theorem value_setEntry (es : List Entry) (c : Cookie) (n : String) :
    (Jar.mk (setEntry es c)).value? n =
      if n = c.Name then (if c.MaxAge < 0 then none else some c.Value)
      else (Jar.mk es).value? n := by
  unfold setEntry
  by_cases hneg : c.MaxAge < 0
  · simp only [hneg, if_true]
    exact value_filter es c.Name n
  · simp only [hneg, if_false]
    by_cases hn : n = c.Name
    · subst hn
      simp only [if_true]
      by_cases ha : (es.any fun e => decide (e.Name = c.Name)) = true
      · rw [if_pos ha]; exact find_overwritten es c.Name c.Value ha
      · rw [if_neg ha]; exact find_appended es c.Name c.Value ha
    · simp only [hn, if_false]
      by_cases ha : (es.any fun e => decide (e.Name = c.Name)) = true
      · rw [if_pos ha]; exact value_overwritten_other es c.Name c.Value n hn
      · rw [if_neg ha]; exact value_appended_other es c.Name c.Value n hn

/-- Storing cookies one after another never yields two entries of one name. -/
theorem setEntry_nodup (es : List Entry) (c : Cookie)
    (h : (es.map Entry.Name).Nodup) : ((setEntry es c).map Entry.Name).Nodup := by
  unfold setEntry
  split
  · exact (h.sublist (List.Sublist.map _ (List.filter_sublist _)))
  · split
    · have : (es.map (fun e => if e.Name = c.Name then { e with Value := c.Value } else e)).map
          Entry.Name = es.map Entry.Name := by
        rw [List.map_map]
        apply List.map_congr_left
        intro e _
        by_cases he : e.Name = c.Name <;> simp [he]
      rw [this]; exact h
    · rename_i hany
      rw [List.map_append, List.nodup_append]
      refine ⟨h, by simp, ?_⟩
      intro a ha hb
      simp only [List.map_cons, List.map_nil, List.mem_singleton] at hb
      subst hb
      apply hany
      simp only [List.mem_map] at ha
      obtain ⟨e, he, hname⟩ := ha
      simp only [List.any_eq_true, decide_eq_true_eq]
      exact ⟨e, he, hname⟩

/-- A jar filled by `SetCookies` has one entry per name when it had before. -/
theorem SetCookies_nodup (j : Jar) (cookies : List Cookie)
    (h : (j.entries.map Entry.Name).Nodup) :
    ((j.SetCookies cookies).entries.map Entry.Name).Nodup := by
  simp only [Jar.SetCookies]
  induction cookies generalizing j with
  | nil => exact h
  | cons c cs ih =>
    simp only [List.foldl_cons]
    exact ih ⟨setEntry j.entries c⟩ (setEntry_nodup j.entries c h)

/-- With one entry per name, every entry is the one found under its name. -/
theorem value_of_mem (es : List Entry) (h : (es.map Entry.Name).Nodup) (e : Entry)
    (he : e ∈ es) : (Jar.mk es).value? e.Name = some e.Value := by
  simp only [Jar.value?]
  induction es with
  | nil => simp at he
  | cons x xs ih =>
    simp only [List.map_cons, List.nodup_cons] at h
    simp only [List.find?_cons]
    by_cases hx : x.Name = e.Name
    · simp only [hx, decide_True]
      rcases List.mem_cons.mp he with h1 | h1
      · rw [h1]; rfl
      · exact absurd (hx ▸ List.mem_map_of_mem Entry.Name h1) h.1
    · simp only [hx, decide_False]
      rcases List.mem_cons.mp he with h1 | h1
      · exact absurd (h1 ▸ rfl) hx
      · exact ih h.2 h1

open LoginGo in
/-- The cookie the reconciliation loop hands back for an entry: expired when its name is
stale, unchanged otherwise. -/
theorem expireStale_cons (e : Entry) (es : List Entry) :
    expireStale (Jar.mk (e :: es)).Cookies =
      { Name := e.Name, Value := e.Value, MaxAge := if staleName e.Name then -1 else 0 } ::
        expireStale (Jar.mk es).Cookies := by
  simp only [expireStale, Jar.Cookies, List.map_cons, List.map_map, staleName]
  by_cases h : e.Name = "mobileClient" ∨ e.Name = "mobileClientVersion" ∨
      e.Name = "steamCountry" ∨ stringsContains e.Name "steamMachineAuth" = true
  · simp [h]
  · simp [h]

open LoginGo in
/-- Handing the jar's own cookies back after the loop, as a map: the stale names among
them are emptied and every other name keeps its value, provided each of the cookies
that is not stale is what the jar holds under its name. -/
theorem value_reconciled (sub cur : List Entry)
    (hsub : ∀ e ∈ sub, staleName e.Name = false → (Jar.mk cur).value? e.Name = some e.Value)
    (n : String) :
    (Jar.mk ((expireStale (Jar.mk sub).Cookies).foldl setEntry cur)).value? n =
      if staleName n = true ∧ n ∈ sub.map Entry.Name then none else (Jar.mk cur).value? n := by
  induction sub generalizing cur with
  | nil => simp [expireStale, Jar.Cookies]
  | cons e es ih =>
    rw [expireStale_cons, List.foldl_cons]
    by_cases hst : staleName e.Name = true
    · have hcur : ∀ m, (Jar.mk (setEntry cur
          { Name := e.Name, Value := e.Value, MaxAge := if staleName e.Name then -1 else 0 })).value? m =
          if m = e.Name then none else (Jar.mk cur).value? m := by
        intro m
        rw [value_setEntry]
        simp [hst]
      rw [ih _ (fun x hx hxs => by
        rw [hcur]
        have hne : x.Name ≠ e.Name := fun h => by rw [h, hst] at hxs; cases hxs
        simp only [hne, if_false]
        exact hsub x (List.mem_cons_of_mem _ hx) hxs)]
      rw [hcur]
      by_cases hn : n = e.Name
      · subst hn
        simp [hst]
      · simp [hn]
    · have hst' : staleName e.Name = false := by simpa using hst
      have hcur : ∀ m, (Jar.mk (setEntry cur
          { Name := e.Name, Value := e.Value, MaxAge := if staleName e.Name then -1 else 0 })).value? m =
          (Jar.mk cur).value? m := by
        intro m
        rw [value_setEntry]
        by_cases hm : m = e.Name
        · subst hm
          simp [hst', hsub e (List.mem_cons_self _ _) hst']
        · simp [hm]
      rw [ih _ (fun x hx hxs => by
        rw [hcur]
        exact hsub x (List.mem_cons_of_mem _ hx) hxs)]
      rw [hcur]
      by_cases hn : n = e.Name
      · subst hn
        simp [hst']
      · simp [hn]

open LoginGo in
/-- Reconciliation as a map: after `SetCookies` is given the jar's own cookies, the stale
ones expired, followed by the `sessionid` cookie, the stale names are empty, `sessionid`
has the new value, and every other name has the value it had. -/
theorem reconciliation (jar : Jar) (h : (jar.entries.map Entry.Name).Nodup)
    (sessionID n : String) :
    (jar.SetCookies (expireStale jar.Cookies ++
        [{ Name := "sessionid", Value := sessionID }])).value? n =
      if n = "sessionid" then some sessionID
      else if staleName n = true then none
      else jar.value? n := by
  obtain ⟨es⟩ := jar
  have hrec := value_reconciled es es (fun e he _ => value_of_mem es h e he)
  simp only [Jar.SetCookies, List.foldl_append, List.foldl_cons, List.foldl_nil]
  rw [value_setEntry]
  by_cases hn : n = "sessionid"
  · simp [hn]
  · simp only [hn, if_false]
    rw [hrec n]
    by_cases hst : staleName n = true
    · simp only [hst, true_and, if_true]
      by_cases hmem : n ∈ es.map Entry.Name
      · simp [hmem]
      · simp only [hmem, if_false]
        simp only [Jar.value?, Option.map_eq_none', List.find?_eq_none, decide_eq_true_eq]
        intro x hx hxn
        exact hmem (hxn ▸ List.mem_map_of_mem Entry.Name hx)
    · simp [hst]

/-! ### The requests and the jar of a login -/

open LoginGo in
/-- A key fetch that yields a key sent the key-fetch request and left on the client the
fresh jar with its four cookies and the cookies of the response. -/
theorem makeLoginRequest_ok (s s1 : Session) (accountName : String) (env : LoginEnv)
    (sent : List Request) (key : LoginResponse)
    (h : makeLoginRequest s accountName env = .ret (s1, sent, .ok key)) :
    sent = [keyFetchRequest accountName] ∧ env.keyFetch.body = .ok key ∧ key.Success = true ∧
    ∃ c0, s.client = some c0 ∧
      s1.client = some { c0 with Jar := some (((⟨[]⟩ : Jar).SetCookies
        [{ Name := "mobileClientVersion", Value := "0 (2.1.3)" },
         { Name := "mobileClient", Value := "android" },
         { Name := "Steam_Language", Value := s.language },
         { Name := "timezoneOffset", Value := "0,0" }]).SetCookies env.keyFetch.setCookies) } := by
  unfold makeLoginRequest at h
  simp only [Client.Do, cookiejarNew] at h
  repeat' split at h
  all_goals first
    | (cases h; done)
    | (injection h with h; injection h with h1 h2; injection h2 with h2 h3; cases h3; done)
    | (injection h with h; injection h with h1 h2; injection h2 with h2 h3; injection h3 with h3
       subst h1 h2 h3; simp_all)

open LoginGo in
/-- What a key fetch sends: nothing when the request cannot be built, else the
key-fetch request. -/
theorem makeLoginRequest_sent (s s1 : Session) (accountName : String) (env : LoginEnv)
    (sent : List Request) (res : Except Error LoginResponse)
    (h : makeLoginRequest s accountName env = .ret (s1, sent, res)) :
    sent = [] ∨ sent = [keyFetchRequest accountName] := by
  unfold makeLoginRequest at h
  simp only [Client.Do, cookiejarNew] at h
  repeat' split at h
  all_goals first
    | (cases h; done)
    | (injection h with h; injection h with h1 h2; injection h2 with h2 h3; subst h2; simp)

open LoginGo in
/-- What `proceedDirectLogin` sends and records: at most the submit request, carrying
the code it was given, no call of the code generator, and the submit request whenever
it succeeds. -/
theorem proceedDirectLogin_sent (s : Session) (response : LoginResponse)
    (accountName password twoFactorCode : String) (env : LoginEnv) (r : LoginResult)
    (h : proceedDirectLogin s response accountName password twoFactorCode env = .ret r) :
    r.generated = [] ∧
    (r.sent = [] ∨ ∃ rsaOut, r.sent =
      [submitRequest response accountName twoFactorCode rsaOut env.submitTime]) ∧
    (r.err = none → ∃ rsaOut, r.sent =
      [submitRequest response accountName twoFactorCode rsaOut env.submitTime]) := by
  unfold proceedDirectLogin at h
  simp only [Client.Do] at h
  repeat' split at h
  all_goals first
    | (cases h; done)
    | (injection h with h; subst h; exact ⟨rfl, Or.inl rfl, fun h => Option.noConfusion h⟩)
    | (injection h with h; subst h; exact ⟨rfl, Or.inr ⟨_, rfl⟩, fun _ => ⟨_, rfl⟩⟩)

open LoginGo in
/-- Either entry point, unfolded: the key fetch, then a return of its error, or of the
error of the code generator, or `proceedDirectLogin` with the code. -/
theorem login_unfold (s : Session) (accountName password sharedSecret twoFactorCode : String)
    (timeOffset : Int) (env : LoginEnv) (r : LoginResult)
    (h : Login s accountName password sharedSecret timeOffset env = .ret r ∨
      LoginTwoFactorCode s accountName password twoFactorCode env = .ret r) :
    ∃ s1 sent1 res, makeLoginRequest s accountName env = .ret (s1, sent1, res) ∧
      ((∃ e, res = .error e ∧ r.session = s1 ∧ r.err = some e ∧ r.sent = sent1) ∨
       (∃ key e, res = .ok key ∧ r.session = s1 ∧ r.err = some e ∧ r.sent = sent1) ∨
       (∃ key code r1, res = .ok key ∧
          proceedDirectLogin s1 key accountName password code env = .ret r1 ∧
          r.session = r1.session ∧ r.err = r1.err ∧ r.sent = sent1 ++ r1.sent)) := by
  rcases h with h | h
  · unfold Login at h
    cases hm : makeLoginRequest s accountName env with
    | panic why => simp [hm] at h
    | ret t =>
      obtain ⟨s1, sent, res⟩ := t
      refine ⟨s1, sent, res, rfl, ?_⟩
      cases res with
      | error e =>
        simp only [hm] at h
        cases h
        exact Or.inl ⟨e, rfl, rfl, rfl, rfl⟩
      | ok key =>
        simp only [hm] at h
        split at h
        · split at h
          · cases h
            exact Or.inr (Or.inl ⟨key, _, rfl, rfl, rfl, rfl⟩)
          · rename_i code hg
            cases hp : proceedDirectLogin s1 key accountName password code env with
            | panic why => simp [hp] at h
            | ret r1 =>
              simp only [hp] at h
              cases h
              exact Or.inr (Or.inr ⟨key, code, r1, rfl, hp, rfl, rfl, rfl⟩)
        · cases hp : proceedDirectLogin s1 key accountName password "" env with
          | panic why => simp [hp] at h
          | ret r1 =>
            simp only [hp] at h
            cases h
            exact Or.inr (Or.inr ⟨key, "", r1, rfl, hp, rfl, rfl, rfl⟩)
  · unfold LoginTwoFactorCode at h
    cases hm : makeLoginRequest s accountName env with
    | panic why => simp [hm] at h
    | ret t =>
      obtain ⟨s1, sent, res⟩ := t
      refine ⟨s1, sent, res, rfl, ?_⟩
      cases res with
      | error e =>
        simp only [hm] at h
        cases h
        exact Or.inl ⟨e, rfl, rfl, rfl, rfl⟩
      | ok key =>
        simp only [hm] at h
        cases hp : proceedDirectLogin s1 key accountName password twoFactorCode env with
        | panic why => simp [hp] at h
        | ret r1 =>
          simp only [hp] at h
          cases h
          exact Or.inr (Or.inr ⟨key, twoFactorCode, r1, rfl, hp, rfl, rfl, rfl⟩)

open LoginGo in
/-- The jar read at reconciliation has one entry per name. -/
theorem jarAtReconciliation_nodup (s : Session) (env : LoginEnv) :
    ((jarAtReconciliation s env).entries.map Entry.Name).Nodup := by
  unfold jarAtReconciliation
  exact SetCookies_nodup _ _ (SetCookies_nodup _ _ (SetCookies_nodup _ _ (by simp)))

open LoginGo in
/-- The jar a successful login leaves is the reconciled `jarAtReconciliation`. -/
theorem login_success_jar (s : Session)
    (accountName password sharedSecret twoFactorCode : String) (timeOffset : Int)
    (env : LoginEnv) (r : LoginResult)
    (h : Login s accountName password sharedSecret timeOffset env = .ret r ∨
      LoginTwoFactorCode s accountName password twoFactorCode env = .ret r)
    (hok : r.err = none) :
    ∃ c, r.session.client = some c ∧
      c.Jar = some ((jarAtReconciliation s env).SetCookies
        (expireStale (jarAtReconciliation s env).Cookies ++
          [{ Name := "sessionid", Value := r.session.sessionID }])) := by
  obtain ⟨s1, sent1, res, hm, hcase⟩ :=
    login_unfold s accountName password sharedSecret twoFactorCode timeOffset env r h
  rcases hcase with ⟨e, _, _, he, _⟩ | ⟨key, e, _, _, he, _⟩ | ⟨key, code, r1, hres, hp, hs, he, _⟩
  · rw [hok] at he; cases he
  · rw [hok] at he; cases he
  · subst hres
    obtain ⟨_, _, _, c0, _, hc1⟩ := makeLoginRequest_ok s s1 accountName env sent1 key hm
    obtain ⟨c, answer, rnd, jar, hc, _, _, _, _, hjar, _, hsid, _, hcl⟩ :=
      proceedDirectLogin_success s1 key accountName password code env r1 hp (he ▸ hok)
    rw [hc1] at hc
    injection hc with hc
    subst hc
    have hj : jar = jarAtReconciliation s env := by
      have : (some ((((⟨[]⟩ : Jar).SetCookies
          [{ Name := "mobileClientVersion", Value := "0 (2.1.3)" },
           { Name := "mobileClient", Value := "android" },
           { Name := "Steam_Language", Value := s.language },
           { Name := "timezoneOffset", Value := "0,0" }]).SetCookies
            env.keyFetch.setCookies).SetCookies env.submit.setCookies)) = some jar := by
        rw [← hjar]
        simp only [Client.Do]
        split <;> rfl
      injection this with this
      exact this.symm
    subst hj
    rw [hs, hsid]
    exact ⟨_, hcl, rfl⟩

/-- C11: on every successful login (by either entry point), with the cookie jar seen as
a map from cookie name to value for the service's base URL: afterwards the jar holds no
cookie named `mobileClient`, `mobileClientVersion` or `steamCountry` and none whose name
contains `steamMachineAuth`; it holds a `sessionid` cookie whose value is the new
sessionID; and every other name has exactly the value it had in the jar just before
reconciliation (`jarAtReconciliation`), so the other cookies are still there unchanged
and none is added. -/
theorem C11_cookie_reconciliation (s : LoginGo.Session)
    (accountName password sharedSecret twoFactorCode : String) (timeOffset : Int)
    (env : LoginGo.LoginEnv) (r : LoginGo.LoginResult)
    (h : LoginGo.Login s accountName password sharedSecret timeOffset env = .ret r ∨
      LoginGo.LoginTwoFactorCode s accountName password twoFactorCode env = .ret r)
    (hok : r.err = none) :
    ∃ c after, r.session.client = some c ∧ c.Jar = some after ∧
      (∀ e ∈ after.entries,
        e.Name ≠ "mobileClient" ∧ e.Name ≠ "mobileClientVersion" ∧ e.Name ≠ "steamCountry" ∧
        stringsContains e.Name "steamMachineAuth" = false) ∧
      after.value? "sessionid" = some r.session.sessionID ∧
      (∀ n, n ≠ "sessionid" → n ≠ "mobileClient" → n ≠ "mobileClientVersion" →
        n ≠ "steamCountry" → stringsContains n "steamMachineAuth" = false →
        after.value? n = (LoginGo.jarAtReconciliation s env).value? n) := by
  obtain ⟨c, hc, hjar⟩ :=
    login_success_jar s accountName password sharedSecret twoFactorCode timeOffset env r h hok
  have hrec := reconciliation (LoginGo.jarAtReconciliation s env)
    (jarAtReconciliation_nodup s env) r.session.sessionID
  refine ⟨c, _, hc, hjar, ?_, ?_, ?_⟩
  · intro e he
    have hv := hrec e.Name
    by_cases hst : LoginGo.staleName e.Name = true
    · have hne : e.Name ≠ "sessionid" := by
        intro hn
        rw [hn] at hst
        exact absurd hst (by decide)
      rw [if_neg hne, if_pos hst] at hv
      simp only [Jar.value?, Option.map_eq_none', List.find?_eq_none, decide_eq_true_eq] at hv
      exact absurd rfl (hv e he)
    · simpa [LoginGo.staleName] using hst
  · rw [hrec]; simp
  · intro n h1 h2 h3 h4 h5
    rw [hrec, if_neg h1]
    have hst : ¬ LoginGo.staleName n = true := by simp [LoginGo.staleName, h2, h3, h4, h5]
    rw [if_neg hst]

set_option maxRecDepth 1000000 in
/-- C11 at a concrete input: the submit response sets `steamLoginSecure`, `steamCountry`
and a machine-auth cookie; after the login the jar has the new `sessionid` and keeps
`Steam_Language`, `timezoneOffset` and `steamLoginSecure`. -/
theorem C11_cookie_reconciliation_witness :
    ∃ r, LoginGo.Login (LoginGo.NewSession (some {}) "" false) "alice" "secret" "" 0
        LoginGo.sampleCookieEnv = .ret r ∧ r.err = none ∧
      LoginGo.cookieOf r.session "sessionid" = some r.session.sessionID ∧
      LoginGo.cookieOf r.session "Steam_Language" = some "english" ∧
      LoginGo.cookieOf r.session "timezoneOffset" = some "0,0" ∧
      LoginGo.cookieOf r.session "steamLoginSecure" = some "76561197960287930%7C%7Cf00d" := by
  have hd : (LoginGo.Login (LoginGo.NewSession (some {}) "" false) "alice" "secret" "" 0
      LoginGo.sampleCookieEnv).result?.map (fun r => r.err) = some none := by decide
  have hj : ((LoginGo.jarAtReconciliation (LoginGo.NewSession (some {}) "" false)
      LoginGo.sampleCookieEnv).value? "Steam_Language",
      (LoginGo.jarAtReconciliation (LoginGo.NewSession (some {}) "" false)
        LoginGo.sampleCookieEnv).value? "timezoneOffset",
      (LoginGo.jarAtReconciliation (LoginGo.NewSession (some {}) "" false)
        LoginGo.sampleCookieEnv).value? "steamLoginSecure") =
      (some "english", some "0,0", some "76561197960287930%7C%7Cf00d") := by decide
  cases hL : LoginGo.Login (LoginGo.NewSession (some {}) "" false) "alice" "secret" "" 0
      LoginGo.sampleCookieEnv with
  | panic why => rw [hL] at hd; exact absurd hd (by simp [Run.result?])
  | ret r =>
    rw [hL] at hd
    have hok : r.err = none := by simpa [Run.result?] using hd
    obtain ⟨c, after, hc, hjar, _, hsid, hkeep⟩ :=
      C11_cookie_reconciliation (LoginGo.NewSession (some {}) "" false) "alice" "secret" "" ""
        0 LoginGo.sampleCookieEnv r (Or.inl hL) hok
    have hcookie : ∀ n, LoginGo.cookieOf r.session n = after.value? n := by
      intro n; simp [LoginGo.cookieOf, hc, hjar]
    simp only [Prod.mk.injEq] at hj
    refine ⟨r, rfl, hok, ?_, ?_, ?_, ?_⟩
    · rw [hcookie, hsid]
    · rw [hcookie, hkeep _ (by decide) (by decide) (by decide) (by decide) (by decide), hj.1]
    · rw [hcookie, hkeep _ (by decide) (by decide) (by decide) (by decide) (by decide), hj.2.1]
    · rw [hcookie, hkeep _ (by decide) (by decide) (by decide) (by decide) (by decide), hj.2.2]


/-! ### A malformed exponent -/

set_option maxRecDepth 100000 in
/-- C12 (counterexample): with the exponent `zz`, which does not parse, `Login` called
with the shared secret `!`, on which the code generator fails, returns the generator's
error and not the parse error. -/
theorem C12_counterexample :
    parseInt16 "zz" = .error (.numError "zz") ∧
    LoginGo.failingGenerator "!" 0 = .error (.generator "illegal base64 data") ∧
    ((LoginGo.Login (LoginGo.NewSession (some {}) "" false) "alice" "secret" "!" 0
        { LoginGo.sampleEnv { LoginGo.sampleKey with PublicKeyExp := "zz" } {} with
          generate := LoginGo.failingGenerator }).result?.map
      (fun r => r.err)) = some (some (.generator "illegal base64 data")) := by
  decide

/-- C12 (amended): when the key fetch succeeds and the exponent string does not parse as
a signed 32-bit integer in base 16, `LoginTwoFactorCode` returns that parse error, and
so does `Login`, unless `Login` is given a non-empty shared secret on which the code
generator fails: the code is generated before the exponent is looked at, and `Login`
then returns the generator's error. In every case the only request sent is the
key-fetch request and the session's oauth, sessionID and deviceID are unchanged. -/
theorem C12_exponent_parse_error (s : LoginGo.Session) (c : Client)
    (accountName password sharedSecret twoFactorCode : String) (timeOffset : Int)
    (env : LoginGo.LoginEnv) (key : LoginGo.LoginResponse) (e : Error)
    (hclient : s.client = some c)
    (hreq : env.keyRequestErr = none)
    (hdo : env.keyFetch.doErr = none)
    (hbody : env.keyFetch.body = .ok key)
    (hkey : key.Success = true)
    (hexp : parseInt16 key.PublicKeyExp = .error e) :
    (∃ r, LoginGo.LoginTwoFactorCode s accountName password twoFactorCode env = .ret r ∧
      r.err = some e ∧ r.sent = [LoginGo.keyFetchRequest accountName] ∧
      r.session.oauth = s.oauth ∧ r.session.sessionID = s.sessionID ∧
      r.session.deviceID = s.deviceID) ∧
    (∃ r, LoginGo.Login s accountName password sharedSecret timeOffset env = .ret r ∧
      r.err = (if sharedSecret.length ≠ 0 then
          match env.generate sharedSecret (Int.fdiv (env.codeTime + timeOffset) 1000000000) with
          | .error g => some g
          | .ok _ => some e
        else some e) ∧
      r.sent = [LoginGo.keyFetchRequest accountName] ∧
      r.session.oauth = s.oauth ∧ r.session.sessionID = s.sessionID ∧
      r.session.deviceID = s.deviceID) := by
  constructor
  · simp [LoginGo.LoginTwoFactorCode, LoginGo.makeLoginRequest, LoginGo.proceedDirectLogin,
      hclient, hreq, cookiejarNew, Client.Do, hdo, hbody, hkey, hexp]
  · by_cases hs : sharedSecret.length ≠ 0
    · cases hg : env.generate sharedSecret (Int.fdiv (env.codeTime + timeOffset) 1000000000) with
      | error g =>
        simp [LoginGo.Login, LoginGo.makeLoginRequest, hclient, hreq, cookiejarNew, Client.Do,
          hdo, hbody, hkey, hs, hg]
      | ok code =>
        simp [LoginGo.Login, LoginGo.makeLoginRequest, LoginGo.proceedDirectLogin, hclient,
          hreq, cookiejarNew, Client.Do, hdo, hbody, hkey, hexp, hs, hg]
    · simp [LoginGo.Login, LoginGo.makeLoginRequest, LoginGo.proceedDirectLogin, hclient,
        hreq, cookiejarNew, Client.Do, hdo, hbody, hkey, hexp, hs]

set_option maxRecDepth 100000 in
/-- C12 (amended) at a concrete input: the exponent `zz`, and an empty shared secret. -/
theorem C12_exponent_parse_error_witness :
    (∃ r, LoginGo.LoginTwoFactorCode (LoginGo.NewSession (some {}) "" false) "alice" "secret"
        "R2D2X" (LoginGo.sampleEnv { LoginGo.sampleKey with PublicKeyExp := "zz" } {}) = .ret r ∧
      r.err = some (.numError "zz") ∧ r.sent = [LoginGo.keyFetchRequest "alice"] ∧
      r.session.oauth = {} ∧ r.session.sessionID = "" ∧ r.session.deviceID = "") ∧
    (∃ r, LoginGo.Login (LoginGo.NewSession (some {}) "" false) "alice" "secret" "" 0
        (LoginGo.sampleEnv { LoginGo.sampleKey with PublicKeyExp := "zz" } {}) = .ret r ∧
      r.err = some (.numError "zz") ∧ r.sent = [LoginGo.keyFetchRequest "alice"] ∧
      r.session.oauth = {} ∧ r.session.sessionID = "" ∧ r.session.deviceID = "") :=
  C12_exponent_parse_error (LoginGo.NewSession (some {}) "" false) {} "alice" "secret" ""
    "R2D2X" 0 (LoginGo.sampleEnv { LoginGo.sampleKey with PublicKeyExp := "zz" } {})
    { LoginGo.sampleKey with PublicKeyExp := "zz" } (.numError "zz") rfl rfl rfl rfl rfl
    (by decide)

/-! ### The two entry points -/

/-- The key-fetch request does not go to the login-submit endpoint. -/
theorem keyFetchRequest_url (accountName : String) :
    (LoginGo.keyFetchRequest accountName).URL ≠ LoginGo.submitURL := by
  intro h
  have h1 := congrArg String.data h
  simp [LoginGo.keyFetchRequest, LoginGo.submitURL] at h1

/-- The submit request goes to the login-submit endpoint and carries the code it was
built with as its `twofactorcode` parameter. -/
theorem submitRequest_code (response : LoginGo.LoginResponse)
    (accountName twoFactorCode : String) (rsaOut : List Nat) (now : Int) :
    (LoginGo.submitRequest response accountName twoFactorCode rsaOut now).URL =
      LoginGo.submitURL ∧
    LoginGo.formValue (LoginGo.submitRequest response accountName twoFactorCode rsaOut now)
      "twofactorcode" = some twoFactorCode := by
  constructor
  · rfl
  · simp [LoginGo.formValue, LoginGo.submitRequest, List.find?_cons]

open LoginGo in
/-- With an empty shared secret `Login` is `LoginTwoFactorCode` with an empty code. -/
theorem login_empty_secret (s : Session) (accountName password : String) (timeOffset : Int)
    (env : LoginEnv) :
    Login s accountName password "" timeOffset env =
      LoginTwoFactorCode s accountName password "" env := by
  unfold Login LoginTwoFactorCode
  cases makeLoginRequest s accountName env with
  | panic why => rfl
  | ret t =>
    obtain ⟨s1, sent, res⟩ := t
    cases res with
    | error e => rfl
    | ok key =>
      have h0 : ¬ ("".length ≠ 0) := by decide
      simp only [h0, if_false]

open LoginGo in
/-- What `LoginTwoFactorCode` sends and records: no call of the code generator, and no
request to the submit endpoint but one carrying the caller's code; a successful call
sent one. -/
theorem loginTwoFactorCode_requests (s : Session)
    (accountName password twoFactorCode : String) (env : LoginEnv) (r : LoginResult)
    (h : LoginTwoFactorCode s accountName password twoFactorCode env = .ret r) :
    r.generated = [] ∧
    (∀ q ∈ r.sent, q.URL = submitURL → formValue q "twofactorcode" = some twoFactorCode) ∧
    (r.err = none → ∃ q ∈ r.sent, q.URL = submitURL) := by
  unfold LoginTwoFactorCode at h
  cases hm : makeLoginRequest s accountName env with
  | panic why => simp [hm] at h
  | ret t =>
    obtain ⟨s1, sent, res⟩ := t
    have hsent := makeLoginRequest_sent s s1 accountName env sent res hm
    have hkf : ∀ q ∈ sent, q.URL ≠ submitURL := by
      intro q hq
      rcases hsent with hs | hs
      · rw [hs] at hq; cases hq
      · rw [hs] at hq
        rw [List.mem_singleton.mp hq]
        exact keyFetchRequest_url accountName
    cases res with
    | error e =>
      simp only [hm] at h
      cases h
      exact ⟨rfl, fun q hq hu => absurd hu (hkf q hq), fun hn => Option.noConfusion hn⟩
    | ok key =>
      simp only [hm] at h
      cases hp : proceedDirectLogin s1 key accountName password twoFactorCode env with
      | panic why => simp [hp] at h
      | ret r1 =>
        simp only [hp] at h
        cases h
        obtain ⟨hgen, hs1, hs2⟩ :=
          proceedDirectLogin_sent s1 key accountName password twoFactorCode env r1 hp
        refine ⟨hgen, ?_, ?_⟩
        · intro q hq hu
          rcases List.mem_append.mp hq with hq | hq
          · exact absurd hu (hkf q hq)
          · rcases hs1 with hs | ⟨rsaOut, hs⟩
            · rw [hs] at hq; cases hq
            · rw [hs] at hq
              rw [List.mem_singleton.mp hq]
              exact (submitRequest_code key accountName twoFactorCode rsaOut env.submitTime).2
        · intro hok
          obtain ⟨rsaOut, hs⟩ := hs2 hok
          exact ⟨_, List.mem_append_right _ (hs ▸ List.mem_singleton_self _),
            (submitRequest_code key accountName twoFactorCode rsaOut env.submitTime).1⟩

/-- C13: the two entry points differ only in where the two-factor code comes from. For
every session, account name, password, time offset and environment, `Login` with an
empty shared secret is the same run as `LoginTwoFactorCode` with an empty code (same
returned error, same session, same requests, or the same panic); it never calls the
code generator, and every request it sends to the submit endpoint has an empty
`twofactorcode`. For every code string, `LoginTwoFactorCode` never calls the generator,
every request it sends to the submit endpoint carries the caller's code unchanged as
`twofactorcode`, and a successful call sent such a request. -/
theorem C13_entry_points (s : LoginGo.Session) (accountName password twoFactorCode : String)
    (timeOffset : Int) (env : LoginGo.LoginEnv) :
    LoginGo.Login s accountName password "" timeOffset env =
      LoginGo.LoginTwoFactorCode s accountName password "" env ∧
    (∀ r, LoginGo.Login s accountName password "" timeOffset env = .ret r →
      r.generated = [] ∧
      ∀ q ∈ r.sent, q.URL = LoginGo.submitURL →
        LoginGo.formValue q "twofactorcode" = some "") ∧
    (∀ r, LoginGo.LoginTwoFactorCode s accountName password twoFactorCode env = .ret r →
      r.generated = [] ∧
      (∀ q ∈ r.sent, q.URL = LoginGo.submitURL →
        LoginGo.formValue q "twofactorcode" = some twoFactorCode) ∧
      (r.err = none → ∃ q ∈ r.sent, q.URL = LoginGo.submitURL)) := by
  refine ⟨login_empty_secret s accountName password timeOffset env, ?_, ?_⟩
  · intro r hr
    rw [login_empty_secret] at hr
    have h := loginTwoFactorCode_requests s accountName password "" env r hr
    exact ⟨h.1, h.2.1⟩
  · intro r hr
    exact loginTwoFactorCode_requests s accountName password twoFactorCode env r hr

set_option maxRecDepth 1000000 in
/-- C13 at a concrete input: a successful `LoginTwoFactorCode` with the code `R2D2X`
sent a request to the submit endpoint, with `twofactorcode` equal to `R2D2X`. -/
theorem C13_entry_points_witness :
    ∃ r, LoginGo.LoginTwoFactorCode (LoginGo.NewSession (some {}) "" false) "alice" "secret"
        "R2D2X" (LoginGo.sampleEnv LoginGo.sampleKey LoginGo.sampleAnswer) = .ret r ∧
      r.err = none ∧ r.generated = [] ∧
      ∃ q ∈ r.sent, q.URL = LoginGo.submitURL ∧
        LoginGo.formValue q "twofactorcode" = some "R2D2X" := by
  have hd : (LoginGo.LoginTwoFactorCode (LoginGo.NewSession (some {}) "" false) "alice" "secret"
      "R2D2X" (LoginGo.sampleEnv LoginGo.sampleKey LoginGo.sampleAnswer)).result?.map
      (fun r => r.err) = some none := by decide
  cases hL : LoginGo.LoginTwoFactorCode (LoginGo.NewSession (some {}) "" false) "alice" "secret"
      "R2D2X" (LoginGo.sampleEnv LoginGo.sampleKey LoginGo.sampleAnswer) with
  | panic why => rw [hL] at hd; exact absurd hd (by simp [Run.result?])
  | ret r =>
    rw [hL] at hd
    have hok : r.err = none := by simpa [Run.result?] using hd
    obtain ⟨hgen, hcode, hsent⟩ :=
      (C13_entry_points (LoginGo.NewSession (some {}) "" false) "alice" "secret" "R2D2X" 0
        (LoginGo.sampleEnv LoginGo.sampleKey LoginGo.sampleAnswer)).2.2 r hL
    obtain ⟨q, hq, hu⟩ := hsent hok
    exact ⟨r, rfl, hok, hgen, q, hq, hu, hcode q hq hu⟩

end Steam
